import Mathlib

/-!
A shallow embedding of the `assert` package (generic value comparison and
failure reporting for Go test helpers), together with proofs of the frozen
claims about it.

Modelling conventions:

* Go `interface{}` arguments are `Option GoValue`; `none` is the nil
  interface value.
* Go machine integers are `Int`/`Nat` together with explicit wrapping
  (`% 2^w`) where conversions overflow; the platform `int`/`uint` are taken
  to be 64 bits wide.
* Go floating point values are modelled as `GoFloat`: either NaN or an
  exact rational.  Rounding of binary floating point is idealised away
  (float literals denote their decimal value exactly); IEEE comparison
  semantics (NaN compares unequal to everything, also to itself) are kept.
* `time.Time` is modelled by the instant it denotes (an integer), so two
  `time.Time` values are equal exactly when they denote the same instant,
  and `IsZero` holds exactly for instant `0`.
* Channels carry an identity and a buffered length; function values carry
  an optional identity (`none` is the nil func).  Aliasing is not
  representable: the pointer-identity fast paths of `reflect.DeepEqual`
  (which can only declare *more* pairs equal, at identical addresses) are
  not modelled.  A channel's buffered contents are summarised by their
  count only.
* Values are finite trees, so the (documented) non-termination of deep
  equality on cyclic structures cannot arise.
* Panics are explicit: fallible operations return `Except GoPanic _`, and
  the failure sink (`TestingT`) is threaded as explicit state.
* Runtime stack introspection (`runtime.Caller`) and the process
  environment (`os.LookupEnv`) are inputs of the model, collected in
  `FailEnv`.
-/

namespace Assert

/-- Width tags of the Go signed integer types (`int` is 64 bits wide). -/
inductive IntW where
  | i | i8 | i16 | i32 | i64
deriving DecidableEq

/-- Width tags of the Go unsigned integer types (`uint` is 64 bits wide). -/
inductive UIntW where
  | u | u8 | u16 | u32 | u64
deriving DecidableEq

/-- Width tags of the Go floating point types. -/
inductive FloatW where
  | f32 | f64
deriving DecidableEq

/-- A Go floating point value: NaN, or an exact rational given as a
fraction `num / den` (rounding is idealised away; infinities are not part
of the modelled universe).  Every fraction the embedding constructs has a
positive denominator; comparisons are by cross multiplication, so they
implement equality and order of the represented rational numbers. -/
inductive GoFloat where
  | nan
  | finite (num : Int) (den : Nat)
deriving DecidableEq

/-- The modelled float denoting an integer. -/
def GoFloat.ofInt (n : Int) : GoFloat := .finite n 1

/-- The Go types of the modelled universe. -/
inductive GoType where
  | tInt (w : IntW)
  | tUInt (w : UIntW)
  | tFloat (w : FloatW)
  | tBool
  | tString
  | tTime
  | tFunc
  | tChan (elem : GoType)
  | tPtr (elem : GoType)
  | tSlice (elem : GoType)
  | tArray (n : Nat) (elem : GoType)
  | tMap (key val : GoType)
deriving DecidableEq

/-- The Go values of the modelled universe.  `none` payloads are typed
nils (nil slice, nil map, nil pointer, nil chan, nil func). -/
inductive GoValue where
  | vInt (w : IntW) (n : Int)
  | vUInt (w : UIntW) (n : Nat)
  | vFloat (w : FloatW) (x : GoFloat)
  | vBool (b : Bool)
  | vString (s : String)
  | vTime (n : Int)
  | vFunc (id : Option Nat)
  | vChan (elem : GoType) (ch : Option (Nat × Nat))
  | vPtr (elem : GoType) (p : Option GoValue)
  | vSlice (elem : GoType) (xs : Option (List GoValue))
  | vArray (elem : GoType) (xs : List GoValue)
  | vMap (key val : GoType) (m : Option (List (GoValue × GoValue)))

namespace GoValue

/- Structural (term) equality on `GoValue`, written by hand because the
`DecidableEq` deriving handler does not support nested inductives. -/
mutual

def geq : GoValue → GoValue → Bool
  | vInt w n, vInt w' n' => w == w' && n == n'
  | vUInt w n, vUInt w' n' => w == w' && n == n'
  | vFloat w x, vFloat w' x' => w == w' && x == x'
  | vBool b, vBool b' => b == b'
  | vString s, vString s' => s == s'
  | vTime n, vTime n' => n == n'
  | vFunc i, vFunc i' => i == i'
  | vChan t c, vChan t' c' => t == t' && c == c'
  | vPtr t p, vPtr t' p' =>
    t == t' &&
      (match p, p' with
       | none, none => true
       | some a, some b => geq a b
       | _, _ => false)
  | vSlice t xs, vSlice t' ys =>
    t == t' &&
      (match xs, ys with
       | none, none => true
       | some a, some b => geqList a b
       | _, _ => false)
  | vArray t xs, vArray t' ys => t == t' && geqList xs ys
  | vMap kt vt m, vMap kt' vt' m' =>
    kt == kt' && vt == vt' &&
      (match m, m' with
       | none, none => true
       | some a, some b => geqPairs a b
       | _, _ => false)
  | _, _ => false
termination_by structural v => v

def geqList : List GoValue → List GoValue → Bool
  | [], [] => true
  | a :: as, b :: bs => geq a b && geqList as bs
  | _, _ => false
termination_by structural l => l

def geqPairs : List (GoValue × GoValue) → List (GoValue × GoValue) → Bool
  | [], [] => true
  | (k, v) :: as, (k', v') :: bs => geq k k' && geq v v' && geqPairs as bs
  | _, _ => false
termination_by structural l => l

end

end GoValue

open GoValue

/-- `reflect.TypeOf` on a (non-nil) value of the universe. -/
def typeOf : GoValue → GoType
  | vInt w _ => .tInt w
  | vUInt w _ => .tUInt w
  | vFloat w _ => .tFloat w
  | vBool _ => .tBool
  | vString _ => .tString
  | vTime _ => .tTime
  | vFunc _ => .tFunc
  | vChan t _ => .tChan t
  | vPtr t _ => .tPtr t
  | vSlice t _ => .tSlice t
  | vArray t xs => .tArray xs.length t
  | vMap kt vt _ => .tMap kt vt

/-- `reflect.TypeOf` on an interface value (`nil` has a nil type). -/
def typeOfI : Option GoValue → Option GoType
  | none => none
  | some v => some (typeOf v)

/-- The `reflect.Kind`s realised by the modelled universe. -/
inductive GoKind where
  | kBool | kInt | kInt8 | kInt16 | kInt32 | kInt64
  | kUInt | kUInt8 | kUInt16 | kUInt32 | kUInt64
  | kFloat32 | kFloat64
  | kArray | kChan | kFunc | kMap | kPtr | kSlice | kString | kStruct
deriving DecidableEq

/-- The numeric value of each `reflect.Kind` constant, as declared in the
`reflect` package (`Bool` is 1, …, `Struct` is 25). -/
def kindIdx : GoKind → Nat
  | .kBool => 1
  | .kInt => 2
  | .kInt8 => 3
  | .kInt16 => 4
  | .kInt32 => 5
  | .kInt64 => 6
  | .kUInt => 7
  | .kUInt8 => 8
  | .kUInt16 => 9
  | .kUInt32 => 10
  | .kUInt64 => 11
  | .kFloat32 => 13
  | .kFloat64 => 14
  | .kArray => 17
  | .kChan => 18
  | .kFunc => 19
  | .kMap => 21
  | .kPtr => 22
  | .kSlice => 23
  | .kString => 24
  | .kStruct => 25

/-- `Type.Kind()`.  `time.Time` is a struct type. -/
def kindOfT : GoType → GoKind
  | .tInt .i => .kInt
  | .tInt .i8 => .kInt8
  | .tInt .i16 => .kInt16
  | .tInt .i32 => .kInt32
  | .tInt .i64 => .kInt64
  | .tUInt .u => .kUInt
  | .tUInt .u8 => .kUInt8
  | .tUInt .u16 => .kUInt16
  | .tUInt .u32 => .kUInt32
  | .tUInt .u64 => .kUInt64
  | .tFloat .f32 => .kFloat32
  | .tFloat .f64 => .kFloat64
  | .tBool => .kBool
  | .tString => .kString
  | .tTime => .kStruct
  | .tFunc => .kFunc
  | .tChan _ => .kChan
  | .tPtr _ => .kPtr
  | .tSlice _ => .kSlice
  | .tArray _ _ => .kArray
  | .tMap _ _ => .kMap

/-- `Value.IsNil()` for the kinds on which it is defined (false
elsewhere; the embedded code only calls it after a kind check). -/
def valueIsNil : GoValue → Bool
  | vFunc none => true
  | vChan _ none => true
  | vPtr _ none => true
  | vSlice _ none => true
  | vMap _ _ none => true
  | _ => false

/-- Go type syntax for the types of the universe, as produced by
`reflect.Type.String()`. -/
def typeString : GoType → String
  | .tInt .i => "int"
  | .tInt .i8 => "int8"
  | .tInt .i16 => "int16"
  | .tInt .i32 => "int32"
  | .tInt .i64 => "int64"
  | .tUInt .u => "uint"
  | .tUInt .u8 => "uint8"
  | .tUInt .u16 => "uint16"
  | .tUInt .u32 => "uint32"
  | .tUInt .u64 => "uint64"
  | .tFloat .f32 => "float32"
  | .tFloat .f64 => "float64"
  | .tBool => "bool"
  | .tString => "string"
  | .tTime => "time.Time"
  | .tFunc => "func()"
  | .tChan e => "chan " ++ typeString e
  | .tPtr e => "*" ++ typeString e
  | .tSlice e => "[]" ++ typeString e
  | .tArray n e => "[" ++ toString n ++ "]" ++ typeString e
  | .tMap k v => "map[" ++ typeString k ++ "]" ++ typeString v

/-- `reflect.Value.String()`: the string itself for strings, the
placeholder `"<T Value>"` for every other kind, and `"<invalid Value>"`
for the zero `Value` (obtained from a nil interface).  It never panics. -/
def valueString : Option GoValue → String
  | none => "<invalid Value>"
  | some (vString s) => s
  | some v => "<" ++ typeString (typeOf v) ++ " Value>"

/-- IEEE equality of two modelled floats: NaN is unequal to everything;
finite fractions are compared as rational numbers. -/
def floatEq : GoFloat → GoFloat → Bool
  | .finite a b, .finite c d => a * (d : Int) == c * (b : Int)
  | _, _ => false

/- Go `==` on values of the universe (used for interface comparisons and
map keys).  Pointer and channel equality is by identity in Go; the model
compares the pointee term resp. the channel identity, which identifies
exactly the values the model can tell apart.  Funcs, slices and maps are
not comparable in Go (comparing them panics); they cannot occur as map
keys or in the embedded `==` call sites, and are given the structural
fallback here. -/
mutual

def primEq : GoValue → GoValue → Bool
  | vInt w n, vInt w' n' => w == w' && n == n'
  | vUInt w n, vUInt w' n' => w == w' && n == n'
  | vFloat w x, vFloat w' x' => w == w' && floatEq x x'
  | vBool b, vBool b' => b == b'
  | vString s, vString s' => s == s'
  | vTime n, vTime n' => n == n'
  | vChan t c, vChan t' c' => t == t' && c == c'
  | vPtr t p, vPtr t' p' =>
    t == t' &&
      (match p, p' with
       | none, none => true
       | some a, some b => geq a b
       | _, _ => false)
  | vArray t xs, vArray t' ys =>
    t == t' && xs.length == ys.length && primList xs ys
  | vFunc i, vFunc i' => i == i'
  | vSlice t xs, vSlice t' ys => geq (vSlice t xs) (vSlice t' ys)
  | vMap kt vt m, vMap kt' vt' m' => geq (vMap kt vt m) (vMap kt' vt' m')
  | _, _ => false
termination_by structural v => v

def primList : List GoValue → List GoValue → Bool
  | [], [] => true
  | a :: as, b :: bs => primEq a b && primList as bs
  | _, _ => false
termination_by structural l => l

end

/- `reflect.DeepEqual` on two non-nil interface values, following
`deepValueEqual`: values of distinct types are never deeply equal;
slices/maps must agree on nilness and length; pointers are followed;
funcs are deeply equal only when both are nil; map keys are matched by
Go `==` and their values compared deeply; everything else (scalars,
strings, chans, the `time.Time` struct) falls back to Go `==`. -/
mutual

def deepEqual : GoValue → GoValue → Bool
  | vInt w n, vInt w' n' => w == w' && n == n'
  | vUInt w n, vUInt w' n' => w == w' && n == n'
  | vFloat w x, vFloat w' x' => w == w' && floatEq x x'
  | vBool b, vBool b' => b == b'
  | vString s, vString s' => s == s'
  | vTime n, vTime n' => n == n'
  | vFunc i, vFunc i' => i.isNone && i'.isNone
  | vChan t c, vChan t' c' => t == t' && c == c'
  | vPtr t p, vPtr t' p' =>
    t == t' &&
      (match p, p' with
       | none, none => true
       | some a, some b => deepEqual a b
       | _, _ => false)
  | vSlice t xs, vSlice t' ys =>
    t == t' &&
      (match xs, ys with
       | none, none => true
       | some a, some b => a.length == b.length && deepList a b
       | _, _ => false)
  | vArray t xs, vArray t' ys =>
    t == t' && xs.length == ys.length && deepList xs ys
  | vMap kt vt m, vMap kt' vt' m' =>
    kt == kt' && vt == vt' &&
      (match m, m' with
       | none, none => true
       | some a, some b => a.length == b.length && mapAll a b
       | _, _ => false)
  | _, _ => false
termination_by structural v => v

def deepList : List GoValue → List GoValue → Bool
  | [], [] => true
  | a :: as, b :: bs => deepEqual a b && deepList as bs
  | _, _ => false
termination_by structural l => l

def mapAll : List (GoValue × GoValue) → List (GoValue × GoValue) → Bool
  | [], _ => true
  | (k, v) :: rest, l2 =>
    l2.any (fun kv2 => primEq k kv2.1 && deepEqual v kv2.2) && mapAll rest l2
termination_by structural l1 => l1

end

/-- `ObjectsAreEqual`: if either interface value is nil, equal iff both
are; otherwise `reflect.DeepEqual`. -/
def ObjectsAreEqual : Option GoValue → Option GoValue → Bool
  | none, none => true
  | none, some _ => false
  | some _, none => false
  | some v, some w => deepEqual v w

/-! ## Conversions: `reflect.Type.ConvertibleTo` and `reflect.Value.Convert`
restricted to the modelled universe (which has no named types beyond
`time.Time`, no complex numbers and no unsafe pointers). -/

/-- Bit width of each signed integer type. -/
def bitsI : IntW → Nat
  | .i => 64
  | .i8 => 8
  | .i16 => 16
  | .i32 => 32
  | .i64 => 64

/-- Bit width of each unsigned integer type. -/
def bitsU : UIntW → Nat
  | .u => 64
  | .u8 => 8
  | .u16 => 16
  | .u32 => 32
  | .u64 => 64

/-- Two's-complement wrapping of an integer into a signed width. -/
def wrapI (bits : Nat) (n : Int) : Int :=
  (n + 2 ^ (bits - 1)) % 2 ^ bits - 2 ^ (bits - 1)

/-- Wrapping of an integer into an unsigned width. -/
def wrapU (bits : Nat) (n : Int) : Nat :=
  (n % 2 ^ bits).toNat

/-- Go float-to-integer conversion truncates toward zero.  For NaN the Go
result is implementation-defined and modelled as 0. -/
def truncF : GoFloat → Int
  | .nan => 0
  | .finite a b => if 0 ≤ a then (a.toNat / b : Nat) else -((-a).toNat / b : Nat)

/-- Whether a type is numeric (integer or float). -/
def isNumT : GoType → Bool
  | .tInt _ => true
  | .tUInt _ => true
  | .tFloat _ => true
  | _ => false

/-- Whether a type is an integer type. -/
def isIntT : GoType → Bool
  | .tInt _ => true
  | .tUInt _ => true
  | _ => false

/-- The Unicode replacement character U+FFFD. -/
def replChar : Char := Char.ofNat 65533

/-- The rune denoted by an integer code point; values outside the valid
code point range become U+FFFD, as in Go's integer-to-string conversion. -/
def goRuneOfInt (n : Int) : Char :=
  if 0 ≤ n && (n < 55296 || (57343 < n && n < 1114112)) then Char.ofNat n.toNat
  else replChar

/-- Go's integer-to-string conversion: a one-rune string. -/
def runeString (n : Int) : String :=
  String.singleton (goRuneOfInt n)

/-- UTF-8 encoding of one character. -/
def utf8Bytes (c : Char) : List Nat :=
  let n := c.toNat
  if n < 128 then [n]
  else if n < 2048 then [192 + n / 64, 128 + n % 64]
  else if n < 65536 then [224 + n / 4096, 128 + (n / 64) % 64, 128 + n % 64]
  else [240 + n / 262144, 128 + (n / 4096) % 64, 128 + (n / 64) % 64, 128 + n % 64]

/-- UTF-8 decoding of a byte list, used for Go's byte-slice-to-string
conversion.  Exact on valid UTF-8 (the image of `utf8Bytes`); on invalid
input it approximates Go's behaviour by emitting U+FFFD. -/
def utf8Decode : List Nat → List Char
  | [] => []
  | b :: rest =>
    if b < 128 then Char.ofNat b :: utf8Decode rest
    else if 194 ≤ b && b ≤ 223 then
      match rest with
      | c :: rest2 =>
        if 128 ≤ c && c ≤ 191 then
          goRuneOfInt ((b - 192) * 64 + (c - 128) : Nat) :: utf8Decode rest2
        else replChar :: utf8Decode (c :: rest2)
      | [] => [replChar]
    else if 224 ≤ b && b ≤ 239 then
      match rest with
      | c :: d :: rest3 =>
        if (128 ≤ c && c ≤ 191) && (128 ≤ d && d ≤ 191) then
          goRuneOfInt ((b - 224) * 4096 + (c - 128) * 64 + (d - 128) : Nat) :: utf8Decode rest3
        else replChar :: utf8Decode (c :: d :: rest3)
      | _ => [replChar]
    else if 240 ≤ b && b ≤ 244 then
      match rest with
      | c :: d :: e :: rest4 =>
        if (128 ≤ c && c ≤ 191) && (128 ≤ d && d ≤ 191) && (128 ≤ e && e ≤ 191) then
          goRuneOfInt ((b - 240) * 262144 + (c - 128) * 4096 + (d - 128) * 64 + (e - 128) : Nat)
            :: utf8Decode rest4
        else replChar :: utf8Decode (c :: d :: e :: rest4)
      | _ => [replChar]
    else replChar :: utf8Decode rest
termination_by l => l.length
decreasing_by all_goals (simp [List.length_cons]; try omega)

/-- `reflect.Type.ConvertibleTo` on the universe: identical types, any
numeric pair, integer to string (a one-rune string), and the
string / byte-slice / rune-slice interconversions. -/
def convertibleTo (src dst : GoType) : Bool :=
  src == dst
    || (isNumT src && isNumT dst)
    || (isIntT src && dst == .tString)
    || (src == .tString && (dst == .tSlice (.tUInt .u8) || dst == .tSlice (.tInt .i32)))
    || ((src == .tSlice (.tUInt .u8) || src == .tSlice (.tInt .i32)) && dst == .tString)

/-- The byte carried by a `[]byte` element (total helper). -/
def byteVal : GoValue → Nat
  | vUInt _ n => n
  | _ => 0

/-- The integer carried by a `[]rune` element (total helper). -/
def intVal : GoValue → Int
  | vInt _ n => n
  | _ => 0

/-- `reflect.Value.Convert`, meaningful when `convertibleTo` holds for
the value's type (the identity elsewhere).  Numeric conversions wrap;
float-to-integer truncates toward zero (overflow and NaN are
implementation-defined in Go and modelled as wrapping of the truncation). -/
def convertVal (v : GoValue) (dst : GoType) : GoValue :=
  match v, dst with
  | vInt _ n, .tInt w => vInt w (wrapI (bitsI w) n)
  | vInt _ n, .tUInt w => vUInt w (wrapU (bitsU w) n)
  | vInt _ n, .tFloat w => vFloat w (.finite n 1)
  | vInt _ n, .tString => vString (runeString n)
  | vUInt _ n, .tInt w => vInt w (wrapI (bitsI w) n)
  | vUInt _ n, .tUInt w => vUInt w (wrapU (bitsU w) n)
  | vUInt _ n, .tFloat w => vFloat w (.finite n 1)
  | vUInt _ n, .tString => vString (runeString n)
  | vFloat _ f, .tInt w => vInt w (wrapI (bitsI w) (truncF f))
  | vFloat _ f, .tUInt w => vUInt w (wrapU (bitsU w) (truncF f))
  | vFloat _ f, .tFloat w => vFloat w f
  | vString s, .tSlice (.tUInt .u8) =>
    vSlice (.tUInt .u8) (some (((s.data.map utf8Bytes).flatten).map (fun b => vUInt .u8 b)))
  | vString s, .tSlice (.tInt .i32) =>
    vSlice (.tInt .i32) (some (s.data.map (fun c => vInt .i32 (c.toNat : Int))))
  | vSlice (.tUInt .u8) xs, .tString =>
    vString (String.mk (utf8Decode ((xs.getD []).map byteVal)))
  | vSlice (.tInt .i32) xs, .tString =>
    vString (String.mk ((xs.getD []).map (fun x => goRuneOfInt (intVal x))))
  | _, _ => v

/-- `ObjectsAreEqualValues`: strict equality, or else — when the actual
type is known and the (valid) expected value is convertible to it — deep
equality after converting expected to actual's type. -/
def ObjectsAreEqualValues (expected actual : Option GoValue) : Bool :=
  if ObjectsAreEqual expected actual then true
  else
    match actual with
    | none => false
    | some av =>
      match expected with
      | none => false
      | some ev =>
        if convertibleTo (typeOf ev) (typeOf av) then
          deepEqual (convertVal ev (typeOf av)) av
        else false

/-- `isNil`: the nil interface, or a nil value whose kind lies in the
`reflect` ordinal range `Chan..Slice` (chan, func, interface, map,
pointer, slice). -/
def isNil : Option GoValue → Bool
  | none => true
  | some v =>
    let kind := kindIdx (kindOfT (typeOf v))
    if 18 ≤ kind && kind ≤ 23 && valueIsNil v then true else false

/-- The `numericZeros` table: one typed zero for each built-in numeric
type handled by `isEmpty`. -/
def numericZeros : List GoValue :=
  [vInt .i 0, vInt .i8 0, vInt .i16 0, vInt .i32 0, vInt .i64 0,
   vUInt .u 0, vUInt .u8 0, vUInt .u16 0, vUInt .u32 0, vUInt .u64 0,
   vFloat .f32 (.finite 0 1), vFloat .f64 (.finite 0 1)]

/-- `isEmpty`: nil, the empty string, false, a typed numeric zero (each
comparison is a Go interface `==`), a zero-length map/slice/chan, a nil
pointer, or a non-nil `*time.Time` whose pointee `IsZero()`. -/
def isEmpty : Option GoValue → Bool
  | none => true
  | some v =>
    if primEq v (vString "") then true
    else if primEq v (vBool false) then true
    else if numericZeros.any (fun z => primEq v z) then true
    else
      match v with
      | vMap _ _ m => (m.getD []).length == 0
      | vSlice _ xs => (xs.getD []).length == 0
      | vChan _ ch => (match ch with | none => 0 | some (_, len) => len) == 0
      | vPtr t p =>
        match p with
        | none => true
        | some target =>
          if t == .tTime then
            match target with
            | vTime n => n == 0
            | _ => false
          else false
      | _ => false

/-! ## Numeric coercion and the delta comparison -/

/-- `toFloat`: the type switch covers `uint8..uint64`, `int..int64`,
`float32` and `float64` — but not `uint`, which therefore does not
coerce.  On failure the returned float is the zero value. -/
def toFloat : Option GoValue → GoFloat × Bool
  | some (vUInt .u8 n) => (.finite n 1, true)
  | some (vUInt .u16 n) => (.finite n 1, true)
  | some (vUInt .u32 n) => (.finite n 1, true)
  | some (vUInt .u64 n) => (.finite n 1, true)
  | some (vInt _ n) => (.finite n 1, true)
  | some (vFloat _ f) => (f, true)
  | _ => (.finite 0 1, false)

/-- IEEE subtraction on modelled floats (NaN is absorbing). -/
def goSub : GoFloat → GoFloat → GoFloat
  | .finite a b, .finite c d => .finite (a * (d : Int) - c * (b : Int)) (b * d)
  | _, _ => .nan

/-- IEEE negation on modelled floats. -/
def goNeg : GoFloat → GoFloat
  | .finite a b => .finite (-a) b
  | .nan => .nan

/-- IEEE `<` on modelled floats: false whenever NaN is involved. -/
def goLt : GoFloat → GoFloat → Bool
  | .finite a b, .finite c d => decide (a * (d : Int) < c * (b : Int))
  | _, _ => false

/-- IEEE `<=` on modelled floats: false whenever NaN is involved. -/
def goLe : GoFloat → GoFloat → Bool
  | .finite a b, .finite c d => decide (a * (d : Int) ≤ c * (b : Int))
  | _, _ => false

/-- IEEE absolute value on modelled floats. -/
def goAbs : GoFloat → GoFloat
  | .finite a b => .finite (if 0 ≤ a then a else -a) b
  | .nan => .nan

/-- `math.IsNaN`. -/
def goIsNaN : GoFloat → Bool
  | .nan => true
  | _ => false

/-! ## The failure reporter -/

/-- The panics the embedded code can raise. -/
inductive GoPanic where
  | interfaceConversion
  | indexOutOfRange
deriving DecidableEq

/-- The failure sink (`TestingT`): records each `Errorf` invocation. -/
structure Sink where
  calls : List String
deriving DecidableEq

/-- One `Errorf` invocation, recorded. -/
def Sink.errorf (t : Sink) (msg : String) : Sink := ⟨t.calls ++ [msg]⟩

/-- The ambient inputs of `Fail`: the `TESTIFY_PRINT_LOCATION`
environment opt-in, and the strings produced by the stack-walking
helpers (`runtime.Caller` is an input of the model, not a computation
in it). -/
structure FailEnv where
  printLocation : Bool
  location : String
  errorTrace : String
  whitespace : String

/-- Substring-at-front test on character lists. -/
def listHasPre : List Char → List Char → Bool
  | [], _ => true
  | _ :: _, [] => false
  | a :: as, b :: bs => a == b && listHasPre as bs

/-- Substring-anywhere test on character lists. -/
def listHasSub (needle : List Char) : List Char → Bool
  | [] => listHasPre needle []
  | c :: t => listHasPre needle (c :: t) || listHasSub needle t

/-- `strings.Contains sub s`: is `sub` a substring of `s`? -/
def strContains (s sub : String) : Bool :=
  listHasSub sub.data s.data

/-- Rendering of an interface value inside a formatted message.  This is
an opaque stand-in for `fmt`'s verb rendering (`%v`, `%#v`, `%s`): no
claim inspects formatted operand text, and `fmt.Sprintf` never panics
(mismatched verbs yield `%!`-style error text, not a fault). -/
def goFormat : Option GoValue → String
  | none => "<nil>"
  | some w => "(" ++ typeString (typeOf w) ++ " value)"

/-- Opaque model of `fmt.Sprintf` applied to a format string and
operands; see `goFormat`. -/
def goSprintf (format : String) (args : List (Option GoValue)) : String :=
  format ++ String.join (args.map goFormat)

/-- Rendering of a (possibly nil) `reflect.Type` in a message. -/
def typeStringI : Option GoType → String
  | none => "<nil>"
  | some t => typeString t

/-- `messageFromMsgAndArgs`: no arguments means no message; a single
argument is **asserted** to be a string (`msgAndArgs[0].(string)` — a
non-string panics); more than one means the first is asserted to be a
format string for the rest. -/
def messageFromMsgAndArgs (msgAndArgs : List (Option GoValue)) : Except GoPanic String :=
  match msgAndArgs with
  | [] => .ok ""
  | [some (vString s)] => .ok s
  | [_] => .error .interfaceConversion
  | some (vString f) :: rest => .ok (goSprintf f rest)
  | _ => .error .interfaceConversion

/-- `bufio.Scanner` with `ScanLines`: split at newlines, dropping one
trailing carriage return per line; no final empty token. -/
def goScanLines (s : String) : List String :=
  if s = "" then []
  else
    let parts := s.splitOn "\n"
    let parts := if parts.getLast? = some "" then parts.dropLast else parts
    parts.map (fun l => if l.endsWith "\r" then l.dropRight 1 else l)

/-- The tab prefix written by `indentMessageLines`: the first line gets
`tabs` tabs, every later line one fewer. -/
def indentTabs (i tabs : Nat) : String :=
  if i == 0 then String.mk (List.replicate tabs '\t')
  else String.mk (List.replicate (tabs - 1) '\t')

/-- `indentMessageLines`. -/
def indentMessageLines (message : String) (tabs : Nat) : String :=
  String.join ((goScanLines message).enum.map
    (fun il => (if il.1 == 0 then "" else "\n") ++ indentTabs il.1 tabs ++ il.2))

/-- `Fail`: reports one failure through the sink.  The location preamble
is emitted only under the environment opt-in; the message argument list
is rendered by `messageFromMsgAndArgs` (which panics on a non-string
first argument); either branch invokes `Errorf` exactly once and the
function returns false. -/
def Fail (t : Sink) (env : FailEnv) (failureMessage : String)
    (msgAndArgs : List (Option GoValue)) : Except GoPanic (Bool × Sink) :=
  let location := if env.printLocation then env.location else ""
  match messageFromMsgAndArgs msgAndArgs with
  | .error p => .error p
  | .ok message =>
    if 0 < message.length then
      .ok (false, t.errorf ("\r" ++ env.whitespace ++ "\r" ++ location ++ "\tError Trace:\t"
        ++ env.errorTrace ++ "\n" ++ "\r\tError:" ++ indentMessageLines failureMessage 2
        ++ "\n" ++ "\r\tMessages:\t" ++ message ++ "\n\r"))
    else
      .ok (false, t.errorf ("\r" ++ env.whitespace ++ "\r" ++ location ++ "\tError Trace:\t"
        ++ env.errorTrace ++ "\n" ++ "\r\tError:" ++ indentMessageLines failureMessage 2
        ++ "\n\r"))

/-! ## The structural differ

`diff` renders both values with `spew.Sdump` (a canonical, deterministic,
multi-line dump that distinguishes distinct values of the same type) and
feeds the line lists to `difflib.GetUnifiedDiffString`, which yields the
empty string on identical inputs and otherwise a unified diff whose
header labels the two sides `Expected` / `Actual`.

The dump is modelled as a token list (one rendered line per token): the
observable properties the claims rely on are its determinism and its
injectivity on values, not its concrete text. -/

/-- One line of the canonical dump. -/
inductive DTok where
  | sym (n : Nat)
  | num (n : Nat)
  | int (n : Int)
  | str (s : String)
deriving DecidableEq

/-- An injective code of an integer. -/
def intCode (n : Int) : Nat :=
  if 0 ≤ n then 2 * n.toNat else 2 * (-n).toNat + 1

/-- The characters of one dump line. -/
def tokChars : DTok → List Char
  | .sym n => '#' :: List.replicate n 'I'
  | .num n => 'N' :: List.replicate n 'I'
  | .int n => 'Z' :: List.replicate (intCode n) 'I'
  | .str s => 'S' :: s.data

/-- The text of one dump line.  Distinct tokens render as distinct
lines. -/
def tokLine (t : DTok) : String := String.mk (tokChars t)

/-- An injective code for each signed width (`int` and `int64` are
distinct types and must render distinctly). -/
def iwCode : IntW → Nat
  | .i => 0
  | .i8 => 8
  | .i16 => 16
  | .i32 => 32
  | .i64 => 64

/-- An injective code for each unsigned width. -/
def uwCode : UIntW → Nat
  | .u => 0
  | .u8 => 8
  | .u16 => 16
  | .u32 => 32
  | .u64 => 64

/-- An injective code for each float width. -/
def fwCode : FloatW → Nat
  | .f32 => 32
  | .f64 => 64

/-- Dump of a modelled float. -/
def floatToks : GoFloat → List DTok
  | .nan => [.sym 30]
  | .finite a b => [.sym 31, .int a, .num b]

/-- Dump of an optional identity (func values). -/
def optNumToks : Option Nat → List DTok
  | none => [.sym 20]
  | some i => [.sym 21, .num i]

/-- Dump of a channel payload. -/
def chanToks : Option (Nat × Nat) → List DTok
  | none => [.sym 20]
  | some (i, len) => [.sym 21, .num i, .num len]

/-- Dump of a type. -/
def typeToks : GoType → List DTok
  | .tInt w => [.sym 40, .sym (iwCode w)]
  | .tUInt w => [.sym 41, .sym (uwCode w)]
  | .tFloat w => [.sym 42, .sym (fwCode w)]
  | .tBool => [.sym 43]
  | .tString => [.sym 44]
  | .tTime => [.sym 45]
  | .tFunc => [.sym 46]
  | .tChan e => .sym 47 :: typeToks e
  | .tPtr e => .sym 48 :: typeToks e
  | .tSlice e => .sym 49 :: typeToks e
  | .tArray n e => .sym 50 :: .num n :: typeToks e
  | .tMap k v => .sym 51 :: (typeToks k ++ typeToks v)

/- The canonical dump of a value, as a token (line) list.  Every value
dump begins with a constructor tag in `sym 0 .. sym 11`; element lists
are rendered with a `sym 23` marker before each element and a `sym 22`
terminator, making the encoding prefix-unambiguous. -/
mutual

def dumpTokens : GoValue → List DTok
  | vInt w n => [.sym 0, .sym (iwCode w), .int n]
  | vUInt w n => [.sym 1, .sym (uwCode w), .num n]
  | vFloat w f => .sym 2 :: .sym (fwCode w) :: floatToks f
  | vBool b => [.sym 3, .sym (cond b 1 0)]
  | vString s => [.sym 4, .str s]
  | vTime n => [.sym 5, .int n]
  | vFunc i => .sym 6 :: optNumToks i
  | vChan t c => .sym 7 :: (typeToks t ++ chanToks c)
  | vPtr t p => .sym 8 :: (typeToks t ++ ptrToks p)
  | vSlice t xs => .sym 9 :: (typeToks t ++ sliceToks xs)
  | vArray t xs => .sym 10 :: (typeToks t ++ seqToks xs)
  | vMap kt vt m => .sym 11 :: (typeToks kt ++ (typeToks vt ++ mapOptToks m))
termination_by structural v => v

def ptrToks : Option GoValue → List DTok
  | none => [.sym 20]
  | some v => .sym 21 :: dumpTokens v
termination_by structural p => p

def sliceToks : Option (List GoValue) → List DTok
  | none => [.sym 20]
  | some l => .sym 21 :: seqToks l
termination_by structural xs => xs

def mapOptToks : Option (List (GoValue × GoValue)) → List DTok
  | none => [.sym 20]
  | some l => .sym 21 :: mapEntryToks l
termination_by structural m => m

def seqToks : List GoValue → List DTok
  | [] => [.sym 22]
  | v :: vs => .sym 23 :: (dumpTokens v ++ seqToks vs)
termination_by structural l => l

def mapEntryToks : List (GoValue × GoValue) → List DTok
  | [] => [.sym 22]
  | (k, v) :: rest => .sym 23 :: (dumpTokens k ++ (dumpTokens v ++ mapEntryToks rest))
termination_by structural l => l

end

/-- The canonical dump of a value as its list of rendered lines
(`spew.Sdump` followed by `difflib.SplitLines` in the source). -/
def dumpLines (v : GoValue) : List String :=
  (dumpTokens v).map tokLine

/-- `difflib.GetUnifiedDiffString` on two line lists, labelled
`Expected` / `Actual` with one line of context: the empty string when
the inputs are identical, otherwise a unified diff opening with the
`--- Expected` / `+++ Actual` header. -/
def getUnifiedDiffString (a b : List String) : String :=
  if a = b then ""
  else
    "--- Expected\n+++ Actual\n@@ @@\n"
      ++ String.join (a.map (fun l => "-" ++ l ++ "\n"))
      ++ String.join (b.map (fun l => "+" ++ l ++ "\n"))

/-- `typeAndKind`: the type and kind of a value, following one level of
pointer indirection. -/
def typeAndKind (v : GoValue) : GoType × GoKind :=
  let t := typeOf v
  let k := kindOfT t
  match t, k with
  | .tPtr e, .kPtr => (e, kindOfT e)
  | t, k => (t, k)

/-- `diff`: the empty string when either value is nil, the (one-level
dereferenced) types differ, or the shared kind is not a
struct/map/slice/array; otherwise a `"\n\nDiff:\n"` block wrapping the
unified diff of the two canonical dumps. -/
def diff (expected actual : Option GoValue) : String :=
  match expected, actual with
  | some e, some a =>
    let et := (typeAndKind e).1
    let ek := (typeAndKind e).2
    let ta := (typeAndKind a).1
    if et != ta then ""
    else if ek != .kStruct && ek != .kMap && ek != .kSlice && ek != .kArray then ""
    else "\n\nDiff:\n" ++ getUnifiedDiffString (dumpLines e) (dumpLines a)
  | _, _ => ""

/-! ## The assertion wrappers used by the claims -/

/-- `Equal`: strict equality or a failure report carrying the diff. -/
def Equal (t : Sink) (env : FailEnv) (expected actual : Option GoValue)
    (msgAndArgs : List (Option GoValue)) : Except GoPanic (Bool × Sink) :=
  if !ObjectsAreEqual expected actual then
    Fail t env ("Not equal: " ++ goFormat expected ++ " (expected)\n        != "
      ++ goFormat actual ++ " (actual)" ++ diff expected actual) msgAndArgs
  else .ok (true, t)

/-- `Exactly`: identical concrete types, then `Equal`. -/
def Exactly (t : Sink) (env : FailEnv) (expected actual : Option GoValue)
    (msgAndArgs : List (Option GoValue)) : Except GoPanic (Bool × Sink) :=
  if typeOfI expected != typeOfI actual then
    Fail t env ("Types expected to match exactly\n\r\t" ++ typeStringI (typeOfI expected)
      ++ " != " ++ typeStringI (typeOfI actual)) msgAndArgs
  else Equal t env expected actual msgAndArgs

/-- `NotNil`: succeeds, without reporting, unless `isNil`. -/
def NotNil (t : Sink) (env : FailEnv) (object : Option GoValue)
    (msgAndArgs : List (Option GoValue)) : Except GoPanic (Bool × Sink) :=
  if !isNil object then .ok (true, t)
  else Fail t env "Expected value not to be nil." msgAndArgs

/-- `Nil`: succeeds, without reporting, iff `isNil`. -/
def Nil (t : Sink) (env : FailEnv) (object : Option GoValue)
    (msgAndArgs : List (Option GoValue)) : Except GoPanic (Bool × Sink) :=
  if isNil object then .ok (true, t)
  else Fail t env ("Expected nil, but got: " ++ goFormat object) msgAndArgs

/-- `includeElement`: substring containment for string containers (via
`reflect.Value.String()` renderings), key membership (by
`ObjectsAreEqual`) for maps, element membership for slices and arrays.
Every panic of the reflective probing — a nil container (whose nil
`reflect.Type` is dereferenced), a `Len()` on a kind without length, an
`Index()` on a chan — is caught by the deferred `recover`, yielding
`(false, false)`. -/
def includeElement (list element : Option GoValue) : Bool × Bool :=
  match list with
  | none => (false, false)
  | some l =>
    if kindOfT (typeOf l) == .kString then
      (true, strContains (valueString list) (valueString element))
    else if kindOfT (typeOf l) == .kMap then
      match l with
      | vMap _ _ m => (true, (m.getD []).any (fun kv => ObjectsAreEqual (some kv.1) element))
      | _ => (false, false)
    else
      match l with
      | vSlice _ xs => (true, (xs.getD []).any (fun x => ObjectsAreEqual (some x) element))
      | vArray _ xs => (true, xs.any (fun x => ObjectsAreEqual (some x) element))
      | vChan _ ch =>
        match ch with
        | none => (true, false)
        | some (_, 0) => (true, false)
        | some _ => (false, false)
      | _ => (false, false)

/-- `Contains`. -/
def Contains (t : Sink) (env : FailEnv) (s contains : Option GoValue)
    (msgAndArgs : List (Option GoValue)) : Except GoPanic (Bool × Sink) :=
  let octl := includeElement s contains
  if !octl.1 then
    Fail t env ("\"" ++ goFormat s ++ "\" could not be applied builtin len()") msgAndArgs
  else if !octl.2 then
    Fail t env ("\"" ++ goFormat s ++ "\" does not contain \"" ++ goFormat contains ++ "\"")
      msgAndArgs
  else .ok (true, t)

/-- A rendered float for failure messages. -/
def goFloatString : GoFloat → String
  | .nan => "NaN"
  | .finite a b => toString a ++ "/" ++ toString b

/-- `InDelta`. -/
def InDelta (t : Sink) (env : FailEnv) (expected actual : Option GoValue) (delta : GoFloat)
    (msgAndArgs : List (Option GoValue)) : Except GoPanic (Bool × Sink) :=
  let af := (toFloat expected).1
  let aok := (toFloat expected).2
  let bf := (toFloat actual).1
  let bok := (toFloat actual).2
  if !aok || !bok then Fail t env "Parameters must be numerical" msgAndArgs
  else if goIsNaN af then Fail t env "Actual must not be NaN" msgAndArgs
  else if goIsNaN bf then
    Fail t env ("Expected " ++ goFormat expected ++ " with delta " ++ goFloatString delta
      ++ ", but was NaN") msgAndArgs
  else
    let dt := goSub af bf
    if goLt dt (goNeg delta) || goLt delta dt then
      Fail t env ("Max difference between " ++ goFormat expected ++ " and " ++ goFormat actual
        ++ " allowed is " ++ goFloatString delta ++ ", but difference was "
        ++ goFloatString dt) msgAndArgs
    else .ok (true, t)

/-- The loop of `InDeltaSlice`: iterates over the indices of the
*actual* slice, fetching `expectedSlice.Index(i)` without a bounds
check — hence the explicit index-out-of-range panic when the expected
slice is shorter. -/
def inDeltaSliceLoop (env : FailEnv) (delta : GoFloat) :
    Sink → List GoValue → List GoValue → Except GoPanic (Bool × Sink)
  | t, _, [] => .ok (true, t)
  | _, [], _ :: _ => .error .indexOutOfRange
  | t, e :: es, a :: as =>
    match InDelta t env (some a) (some e) delta [] with
    | .error p => .error p
    | .ok rt => if rt.1 then inDeltaSliceLoop env delta rt.2 es as else .ok (false, rt.2)

/-- `InDeltaSlice`. -/
def InDeltaSlice (t : Sink) (env : FailEnv) (expected actual : Option GoValue) (delta : GoFloat)
    (msgAndArgs : List (Option GoValue)) : Except GoPanic (Bool × Sink) :=
  match expected, actual with
  | some e, some a =>
    if kindOfT (typeOf a) != .kSlice || kindOfT (typeOf e) != .kSlice then
      Fail t env "Parameters must be slice" msgAndArgs
    else
      match e, a with
      | vSlice _ exs, vSlice _ axs => inDeltaSliceLoop env delta t (exs.getD []) (axs.getD [])
      | _, _ => Fail t env "Parameters must be slice" msgAndArgs
  | _, _ => Fail t env "Parameters must be slice" msgAndArgs

/-! ## Observation helpers for the theorems -/

/-- The boolean verdict of a wrapper call, `none` when it panicked. -/
def assertVerdict : Except GoPanic (Bool × Sink) → Option Bool
  | .ok bt => some bt.1
  | .error _ => none

/-- The number of `Errorf` invocations after a wrapper call, `none` when
it panicked. -/
def sinkCallCount : Except GoPanic (Bool × Sink) → Option Nat
  | .ok bt => some bt.2.calls.length
  | .error _ => none

/-- The panic raised by a wrapper call, `none` when it returned. -/
def panicOf : Except GoPanic (Bool × Sink) → Option GoPanic
  | .ok _ => none
  | .error p => some p

/-- A fresh sink. -/
def sink0 : Sink := ⟨[]⟩

/-- A default environment (location printing disabled). -/
def env0 : FailEnv := ⟨false, "", "", ""⟩

/-! ## Specification-side definitions used to state the claims -/

/-- The coercion clause of the spec's `ValueEqual`, in the spec's words:
the expected value, converted to the actual value's concrete type, is
strictly equal to actual (conversion is attempted only in this
direction). -/
def valueEqualViaConversion : Option GoValue → Option GoValue → Bool
  | some ev, some av =>
    convertibleTo (typeOf ev) (typeOf av) && deepEqual (convertVal ev (typeOf av)) av
  | _, _ => false

/- The class of values on which deep equality is reflexive: values
containing no NaN float and no non-nil function value. -/
mutual

def selfEqSafe : GoValue → Bool
  | vInt _ _ => true
  | vUInt _ _ => true
  | vFloat _ x => !goIsNaN x
  | vBool _ => true
  | vString _ => true
  | vTime _ => true
  | vFunc i => i.isNone
  | vChan _ _ => true
  | vPtr _ p =>
    match p with
    | none => true
    | some v => selfEqSafe v
  | vSlice _ xs =>
    match xs with
    | none => true
    | some l => selfEqSafeList l
  | vArray _ xs => selfEqSafeList xs
  | vMap _ _ m =>
    match m with
    | none => true
    | some l => selfEqSafePairs l
termination_by structural v => v

def selfEqSafeList : List GoValue → Bool
  | [] => true
  | v :: vs => selfEqSafe v && selfEqSafeList vs
termination_by structural l => l

def selfEqSafePairs : List (GoValue × GoValue) → Bool
  | [] => true
  | (k, v) :: rest => selfEqSafe k && selfEqSafe v && selfEqSafePairs rest
termination_by structural l => l

end

/-- `selfEqSafe` on interface values. -/
def selfEqSafeI : Option GoValue → Bool
  | none => true
  | some v => selfEqSafe v

/-- Whether a message-argument list is safe for `messageFromMsgAndArgs`:
empty, or its first element is a string. -/
def stringHeaded : List (Option GoValue) → Bool
  | [] => true
  | some (vString _) :: _ => true
  | _ => false

/-- The kinds `includeElement` cannot treat as containers. -/
def noContainKind (v : GoValue) : Bool :=
  match kindOfT (typeOf v) with
  | .kString => false
  | .kMap => false
  | .kSlice => false
  | .kArray => false
  | _ => true

/-- The spec-side reading of `isNil`: the nil interface, or a typed nil
of a nillable kind (chan, func, map, pointer, slice — the interface kind
cannot appear as the dynamic type of an interface value). -/
def isNilSpec : Option GoValue → Bool
  | none => true
  | some (vChan _ none) => true
  | some (vFunc none) => true
  | some (vMap _ _ none) => true
  | some (vPtr _ none) => true
  | some (vSlice _ none) => true
  | _ => false

/-! ## Claim theorems -/

/-- C1: `ObjectsAreEqualValues(int32(5), int64(5))` is true while
`Exactly(int32(5), int64(5))` returns false; in general
`ObjectsAreEqualValues` succeeds exactly when strict equality holds or
the expected value, converted to the actual value's concrete type, is
strictly equal to actual — conversion is attempted only in the
expected-to-actual direction (witnessed by the `int 65` / `"A"` pair,
equal-values in one direction only). -/
theorem c1_valueEqual_vs_exactEqual :
    ObjectsAreEqualValues (some (vInt .i32 5)) (some (vInt .i64 5)) = true
    ∧ assertVerdict (Exactly sink0 env0 (some (vInt .i32 5)) (some (vInt .i64 5)) []) = some false
    ∧ (∀ e a : Option GoValue,
        ObjectsAreEqualValues e a = (ObjectsAreEqual e a || valueEqualViaConversion e a))
    ∧ ObjectsAreEqualValues (some (vInt .i 65)) (some (vString "A")) = true
    ∧ ObjectsAreEqualValues (some (vString "A")) (some (vInt .i 65)) = false := by
  refine ⟨by decide, by decide, ?_, by decide, by decide⟩
  intro e a
  cases h : ObjectsAreEqual e a with
  | true => simp [ObjectsAreEqualValues, h]
  | false =>
    cases e with
    | none => cases a <;> simp [ObjectsAreEqualValues, valueEqualViaConversion, h]
    | some ev =>
      cases a with
      | none => simp [ObjectsAreEqualValues, valueEqualViaConversion, h]
      | some av =>
        simp only [ObjectsAreEqualValues, valueEqualViaConversion, h, Bool.false_eq_true,
          if_false, Bool.false_or]
        by_cases hc : convertibleTo (typeOf ev) (typeOf av) = true
        · simp [hc]
        · simp [Bool.not_eq_true] at hc
          simp [hc]

/-- C2: the claim of totality fails — `InDeltaSlice` iterates over the
indices of the actual slice and fetches the corresponding expected
element without a bounds check, so it panics (index out of range) when
the actual slice is longer than the expected one, instead of returning a
boolean verdict. -/
theorem c2_inDeltaSlice_panics_on_longer_actual :
    panicOf (InDeltaSlice sink0 env0
      (some (vSlice (.tFloat .f64) (some [vFloat .f64 (.finite 1 1)])))
      (some (vSlice (.tFloat .f64) (some [vFloat .f64 (.finite 1 1), vFloat .f64 (.finite 2 1)])))
      (.finite 1 10) []) = some .indexOutOfRange
    ∧ assertVerdict (InDeltaSlice sink0 env0
      (some (vSlice (.tFloat .f64) (some [vFloat .f64 (.finite 1 1)])))
      (some (vSlice (.tFloat .f64) (some [vFloat .f64 (.finite 1 1), vFloat .f64 (.finite 2 1)])))
      (.finite 1 10) []) = none := by
  exact ⟨by decide, by decide⟩

/-- C6: `isEmpty` is true for nil, the empty string, false, the numeric
zero of every width and signedness, a zero-length slice, map or channel,
and a nil pointer; it is false for the non-empty string `"a"`. -/
theorem c6_isEmpty_zero_values :
    isEmpty none = true
    ∧ isEmpty (some (vString "")) = true
    ∧ isEmpty (some (vBool false)) = true
    ∧ (∀ w : IntW, isEmpty (some (vInt w 0)) = true)
    ∧ (∀ w : UIntW, isEmpty (some (vUInt w 0)) = true)
    ∧ (∀ w : FloatW, isEmpty (some (vFloat w (.finite 0 1))) = true)
    ∧ (∀ t : GoType, isEmpty (some (vSlice t (some []))) = true)
    ∧ (∀ kt vt : GoType, isEmpty (some (vMap kt vt (some []))) = true)
    ∧ (∀ (t : GoType) (i : Nat), isEmpty (some (vChan t (some (i, 0)))) = true)
    ∧ (∀ t : GoType, isEmpty (some (vPtr t none)) = true)
    ∧ isEmpty (some (vString "a")) = false := by
  refine ⟨by decide, by decide, by decide, ?_, ?_, ?_, ?_, ?_, ?_, ?_, by decide⟩
  · intro w; cases w <;> decide
  · intro w; cases w <;> decide
  · intro w; cases w <;> decide
  · intro t; rfl
  · intro kt vt; rfl
  · intro t i; rfl
  · intro t; rfl

/-- C9: `isNil` classifies a value as nil exactly when it is the nil
interface or a typed nil of a nillable kind (chan, func, map, pointer or
slice); consequently `NotNil` succeeds without reporting on the zero
scalars `0`, `""` and `false`, while `Nil` fails on those same values. -/
theorem c9_isNil_nillable_kinds_only :
    (∀ v : Option GoValue, isNil v = isNilSpec v)
    ∧ (assertVerdict (NotNil sink0 env0 (some (vInt .i 0)) []) = some true
       ∧ sinkCallCount (NotNil sink0 env0 (some (vInt .i 0)) []) = some 0)
    ∧ (assertVerdict (NotNil sink0 env0 (some (vString "")) []) = some true
       ∧ sinkCallCount (NotNil sink0 env0 (some (vString "")) []) = some 0)
    ∧ (assertVerdict (NotNil sink0 env0 (some (vBool false)) []) = some true
       ∧ sinkCallCount (NotNil sink0 env0 (some (vBool false)) []) = some 0)
    ∧ (assertVerdict (Nil sink0 env0 (some (vInt .i 0)) []) = some false
       ∧ sinkCallCount (Nil sink0 env0 (some (vInt .i 0)) []) = some 1)
    ∧ assertVerdict (Nil sink0 env0 (some (vString "")) []) = some false
    ∧ assertVerdict (Nil sink0 env0 (some (vBool false)) []) = some false := by
  refine ⟨?_, ⟨by decide, by decide⟩, ⟨by decide, by decide⟩, ⟨by decide, by decide⟩,
    ⟨by decide, by decide⟩, by decide, by decide⟩
  intro v
  cases v with
  | none => rfl
  | some x =>
    cases x with
    | vInt w n => cases w <;> rfl
    | vUInt w n => cases w <;> rfl
    | vFloat w x => cases w <;> rfl
    | vBool b => rfl
    | vString s => rfl
    | vTime n => rfl
    | vFunc i => cases i <;> rfl
    | vChan t c => cases c <;> rfl
    | vPtr t p => cases p <;> rfl
    | vSlice t xs => cases xs <;> rfl
    | vArray t xs => rfl
    | vMap kt vt m => cases m <;> rfl

/-- C10: for non-nil pointers `isEmpty` sees through the indirection
only for `*time.Time` — a non-nil `*time.Time` is empty exactly when the
pointed-to time is the zero time, while a non-nil pointer to a value of
any other type (even an empty string, a zero integer or an empty slice)
is never empty. -/
theorem c10_isEmpty_pointer_time_only :
    (∀ n : Int, isEmpty (some (vPtr .tTime (some (vTime n)))) = (n == 0))
    ∧ (∀ v : GoValue, typeOf v ≠ .tTime → isEmpty (some (vPtr (typeOf v) (some v))) = false)
    ∧ isEmpty (some (vPtr .tTime (some (vTime 0)))) = true
    ∧ isEmpty (some (vPtr .tString (some (vString "")))) = false
    ∧ isEmpty (some (vPtr (.tInt .i) (some (vInt .i 0)))) = false
    ∧ isEmpty (some (vPtr (.tSlice .tBool) (some (vSlice .tBool (some []))))) = false := by
  refine ⟨fun n => rfl, ?_, by decide, by decide, by decide, by decide⟩
  intro v h
  cases v with
  | vInt w n => rfl
  | vUInt w n => rfl
  | vFloat w x => rfl
  | vBool b => rfl
  | vString s => rfl
  | vTime n => exact absurd rfl h
  | vFunc i => rfl
  | vChan t c => rfl
  | vPtr t p => rfl
  | vSlice t xs => rfl
  | vArray t xs => rfl
  | vMap kt vt m => rfl

/-- C10 witness: the second clause applied to a pointer to an empty
string. -/
theorem c10_isEmpty_pointer_time_only_witness :
    typeOf (vString "") ≠ GoType.tTime
    ∧ isEmpty (some (vPtr (typeOf (vString "")) (some (vString "")))) = false :=
  ⟨by decide, c10_isEmpty_pointer_time_only.2.1 (vString "") (by decide)⟩

/-! ## Helper lemmas about the reporter -/

theorem messageFromMsgAndArgs_ok_of_stringHeaded :
    ∀ args, stringHeaded args = true → ∃ m, messageFromMsgAndArgs args = .ok m := by
  intro args h
  cases args with
  | nil => exact ⟨"", rfl⟩
  | cons hd tl =>
    cases hd with
    | none => exact absurd h (by simp [stringHeaded])
    | some x =>
      cases x
      case vString s =>
        cases tl with
        | nil => exact ⟨s, rfl⟩
        | cons r rs => exact ⟨goSprintf s (r :: rs), rfl⟩
      all_goals exact absurd h (by simp [stringHeaded])

theorem messageFromMsgAndArgs_error_of_not_stringHeaded :
    ∀ args, stringHeaded args = false →
      messageFromMsgAndArgs args = .error .interfaceConversion := by
  intro args h
  cases args with
  | nil => simp [stringHeaded] at h
  | cons hd tl =>
    cases hd with
    | none => cases tl <;> rfl
    | some x =>
      cases x
      case vString s => simp [stringHeaded] at h
      all_goals cases tl <;> rfl

theorem Fail_ok_of_stringHeaded (t : Sink) (env : FailEnv) (msg : String)
    (args : List (Option GoValue)) (h : stringHeaded args = true) :
    assertVerdict (Fail t env msg args) = some false
    ∧ sinkCallCount (Fail t env msg args) = some (t.calls.length + 1) := by
  obtain ⟨m, hm⟩ := messageFromMsgAndArgs_ok_of_stringHeaded args h
  unfold Fail
  rw [hm]
  by_cases hl : 0 < m.length
  · simp [hl, assertVerdict, sinkCallCount, Sink.errorf]
  · simp [hl, assertVerdict, sinkCallCount, Sink.errorf]

theorem Fail_empty_args (t : Sink) (env : FailEnv) (msg : String) :
    assertVerdict (Fail t env msg []) = some false
    ∧ sinkCallCount (Fail t env msg []) = some (t.calls.length + 1) :=
  Fail_ok_of_stringHeaded t env msg [] rfl

/-- C7: the claim fails as stated — on a message-argument list whose
first element is not a string, `Fail` panics in
`messageFromMsgAndArgs` (`msgAndArgs[0].(string)`) and the sink's
`Errorf` is never invoked. -/
theorem c7_fail_panics_on_non_string_message :
    panicOf (Fail sink0 env0 "boom" [some (vInt .i 7)]) = some .interfaceConversion
    ∧ sinkCallCount (Fail sink0 env0 "boom" [some (vInt .i 7)]) = none :=
  ⟨by decide, by decide⟩

/-- C7 (amended): for every sink, environment, headline and
message-argument list that is empty or has a string first argument,
`Fail` returns false and invokes `Errorf` exactly once; for every other
message-argument list it panics with a failed type assertion and never
invokes `Errorf`. -/
theorem c7_reportFailure_reports_exactly_once :
    (∀ (t : Sink) (env : FailEnv) (msg : String) (args : List (Option GoValue)),
        stringHeaded args = true →
        assertVerdict (Fail t env msg args) = some false
        ∧ sinkCallCount (Fail t env msg args) = some (t.calls.length + 1))
    ∧ (∀ (t : Sink) (env : FailEnv) (msg : String) (args : List (Option GoValue)),
        stringHeaded args = false →
        panicOf (Fail t env msg args) = some .interfaceConversion
        ∧ sinkCallCount (Fail t env msg args) = none) := by
  refine ⟨fun t env msg args h => Fail_ok_of_stringHeaded t env msg args h, ?_⟩
  intro t env msg args h
  have hm := messageFromMsgAndArgs_error_of_not_stringHeaded args h
  unfold Fail
  rw [hm]
  exact ⟨rfl, rfl⟩

/-- C7 witness: the amended theorem applied to an empty and to a
string-headed argument list. -/
theorem c7_reportFailure_reports_exactly_once_witness :
    (assertVerdict (Fail sink0 env0 "boom" [some (vString "ctx")]) = some false
     ∧ sinkCallCount (Fail sink0 env0 "boom" [some (vString "ctx")]) = some (sink0.calls.length + 1))
    ∧ panicOf (Fail sink0 env0 "boom" [none]) = some .interfaceConversion
     ∧ sinkCallCount (Fail sink0 env0 "boom" [none]) = none :=
  ⟨c7_reportFailure_reports_exactly_once.1 sink0 env0 "boom" [some (vString "ctx")] (by decide),
   c7_reportFailure_reports_exactly_once.2 sink0 env0 "boom" [none] (by decide)⟩

/-! ## Helper lemmas about `Contains` -/

theorem Contains_verdict_of_found (t : Sink) (env : FailEnv) (s el : Option GoValue)
    (f : Bool) (h : includeElement s el = (true, f)) :
    assertVerdict (Contains t env s el []) = some f := by
  unfold Contains
  cases hf : f with
  | true => simp [h, hf, assertVerdict]
  | false => simp [h, hf, (Fail_empty_args t env _).1]

theorem Contains_verdict_of_not_ok (t : Sink) (env : FailEnv) (s el : Option GoValue)
    (h : (includeElement s el).1 = false) :
    assertVerdict (Contains t env s el []) = some false := by
  unfold Contains
  simp [h, (Fail_empty_args t env _).1]

theorem Contains_count_of_not_found (t : Sink) (env : FailEnv) (s el : Option GoValue)
    (h : (includeElement s el).2 = false) :
    sinkCallCount (Contains t env s el []) = some (t.calls.length + 1) := by
  unfold Contains
  cases ho : (includeElement s el).1 <;>
    simp [ho, h, (Fail_empty_args t env _).2]

/-- C5: `Contains` succeeds on a string container iff the element is a
substring, on a map container iff the element is strictly equal to some
key (values are not consulted), and on a slice or array container iff
some element is strictly equal to the sought element; on every
non-containable kind it fails with a report instead of crashing.  The
four spec examples are included. -/
theorem c5_contains_semantics :
    (∀ (t : Sink) (env : FailEnv) (s sub : String),
        assertVerdict (Contains t env (some (vString s)) (some (vString sub)) [])
          = some (strContains s sub))
    ∧ (∀ (t : Sink) (env : FailEnv) (kt vt : GoType) (entries : List (GoValue × GoValue))
          (el : Option GoValue),
        assertVerdict (Contains t env (some (vMap kt vt (some entries))) el [])
          = some (entries.any (fun kv => ObjectsAreEqual (some kv.1) el)))
    ∧ (∀ (t : Sink) (env : FailEnv) (et : GoType) (xs : List GoValue) (el : Option GoValue),
        assertVerdict (Contains t env (some (vSlice et (some xs))) el [])
          = some (xs.any (fun x => ObjectsAreEqual (some x) el))
        ∧ assertVerdict (Contains t env (some (vArray et xs)) el [])
          = some (xs.any (fun x => ObjectsAreEqual (some x) el)))
    ∧ (∀ (t : Sink) (env : FailEnv) (v : GoValue) (el : Option GoValue),
        noContainKind v = true →
        assertVerdict (Contains t env (some v) el []) = some false
        ∧ sinkCallCount (Contains t env (some v) el []) = some (t.calls.length + 1))
    ∧ assertVerdict (Contains sink0 env0 (some (vString "Hello World"))
        (some (vString "World")) []) = some true
    ∧ assertVerdict (Contains sink0 env0
        (some (vSlice .tString (some [vString "Hello", vString "World"])))
        (some (vString "Earth")) []) = some false
    ∧ assertVerdict (Contains sink0 env0
        (some (vMap .tString .tString (some [(vString "Hello", vString "World")])))
        (some (vString "Hello")) []) = some true
    ∧ assertVerdict (Contains sink0 env0
        (some (vMap .tString .tString (some [(vString "Hello", vString "World")])))
        (some (vString "World")) []) = some false := by
  refine ⟨?_, ?_, ?_, ?_, by decide, by decide, by decide, by decide⟩
  · intro t env s sub
    exact Contains_verdict_of_found t env _ _ _ rfl
  · intro t env kt vt entries el
    exact Contains_verdict_of_found t env _ _ _ rfl
  · intro t env et xs el
    exact ⟨Contains_verdict_of_found t env _ _ _ rfl, Contains_verdict_of_found t env _ _ _ rfl⟩
  · intro t env v el h
    have hfound : (includeElement (some v) el).2 = false := by
      cases v with
      | vInt w n => cases w <;> rfl
      | vUInt w n => cases w <;> rfl
      | vFloat w x => cases w <;> rfl
      | vBool b => rfl
      | vTime n => rfl
      | vFunc i => rfl
      | vChan t c =>
        cases c with
        | none => rfl
        | some pr =>
          obtain ⟨i, len⟩ := pr
          cases len <;> rfl
      | vPtr t p => rfl
      | vString s => simp [noContainKind, typeOf, kindOfT] at h
      | vSlice t xs => simp [noContainKind, typeOf, kindOfT] at h
      | vArray t xs => simp [noContainKind, typeOf, kindOfT] at h
      | vMap kt vt m => simp [noContainKind, typeOf, kindOfT] at h
    refine ⟨?_, Contains_count_of_not_found t env _ el hfound⟩
    cases ho : (includeElement (some v) el).1 with
    | false => exact Contains_verdict_of_not_ok t env _ el ho
    | true => exact Contains_verdict_of_found t env _ el false (by rw [← ho, ← hfound])

/-- C5 witness: the non-containable clause applied to an integer
container. -/
theorem c5_contains_semantics_witness :
    noContainKind (vInt .i 3) = true
    ∧ (assertVerdict (Contains sink0 env0 (some (vInt .i 3)) (some (vInt .i 3)) []) = some false
       ∧ sinkCallCount (Contains sink0 env0 (some (vInt .i 3)) (some (vInt .i 3)) [])
           = some (sink0.calls.length + 1)) :=
  ⟨by decide, c5_contains_semantics.2.2.2.1 sink0 env0 (vInt .i 3) (some (vInt .i 3)) (by decide)⟩

/-! ## Helper lemmas about `InDelta` -/

theorem goSub_finite (a c : Int) (b d : Nat) :
    goSub (.finite a b) (.finite c d) = .finite (a * (d : Int) - c * (b : Int)) (b * d) := rfl

theorem goNeg_finite (a : Int) (b : Nat) : goNeg (.finite a b) = .finite (-a) b := rfl

theorem goLt_finite (a c : Int) (b d : Nat) :
    goLt (.finite a b) (.finite c d) = decide (a * (d : Int) < c * (b : Int)) := rfl

theorem goLe_finite (a c : Int) (b d : Nat) :
    goLe (.finite a b) (.finite c d) = decide (a * (d : Int) ≤ c * (b : Int)) := rfl

theorem goAbs_finite (a : Int) (b : Nat) :
    goAbs (.finite a b) = .finite (if 0 ≤ a then a else -a) b := rfl

theorem goLt_nan_right : ∀ x, goLt x .nan = false := by
  intro x; cases x <;> rfl

theorem goLt_nan_left : ∀ x, goLt .nan x = false := by
  intro x; cases x <;> rfl

/-- `InDelta` reduced on operands that coerce to finite floats. -/
theorem InDelta_finite (t : Sink) (env : FailEnv) (e a : Option GoValue)
    (A C : Int) (B D : Nat) (delta : GoFloat)
    (h1 : toFloat e = (.finite A B, true)) (h2 : toFloat a = (.finite C D, true)) :
    InDelta t env e a delta []
      = if goLt (goSub (.finite A B) (.finite C D)) (goNeg delta)
           || goLt delta (goSub (.finite A B) (.finite C D))
        then Fail t env ("Max difference between " ++ goFormat e ++ " and " ++ goFormat a
          ++ " allowed is " ++ goFloatString delta ++ ", but difference was "
          ++ goFloatString (goSub (.finite A B) (.finite C D))) []
        else .ok (true, t) := by
  unfold InDelta
  rw [h1, h2]
  rfl

theorem goNeg_nan : goNeg .nan = .nan := rfl

/-- The two strict comparisons of the delta check are together
equivalent to the absolute-difference bound, for any denominators. -/
theorem cross_abs_iff (X dn : Int) (bd dd : Nat) :
    ((if 0 ≤ X then X else -X) * (dd : Int) ≤ dn * (bd : Int)
      ↔ ¬(X * (dd : Int) < -dn * (bd : Int)) ∧ ¬((dn : Int) * (bd : Int) < X * (dd : Int))) := by
  have hdd : (0 : Int) ≤ (dd : Int) := Int.ofNat_nonneg dd
  rw [neg_mul]
  by_cases hX : 0 ≤ X
  · have hP : 0 ≤ X * (dd : Int) := mul_nonneg hX hdd
    rw [if_pos hX]
    constructor
    · intro h; exact ⟨by linarith, by linarith⟩
    · intro h; linarith [h.2]
  · have hX' : X < 0 := lt_of_not_le hX
    have hP : X * (dd : Int) ≤ 0 := by nlinarith
    rw [if_neg hX, neg_mul]
    constructor
    · intro h; exact ⟨by linarith, by linarith⟩
    · intro h; linarith [h.1]

/-- C4: the claim's "otherwise succeeds iff `|expected − actual| ≤
delta`" fails for a NaN delta — both strict comparisons are false
against NaN, so the assertion succeeds although the IEEE comparison
`|expected − actual| ≤ NaN` is false. -/
theorem c4_inDelta_nan_delta_counterexample :
    assertVerdict (InDelta sink0 env0 (some (vFloat .f64 (.finite 1 1)))
      (some (vFloat .f64 (.finite 2 1))) .nan []) = some true
    ∧ goLe (goAbs (goSub (toFloat (some (vFloat .f64 (.finite 1 1)))).1
        (toFloat (some (vFloat .f64 (.finite 2 1)))).1)) .nan = false :=
  ⟨by decide, by decide⟩

/-- C4 (amended): `InDelta` fails with one report when either operand is
not coerced by `toFloat`, or a coerced operand is NaN; otherwise, for a
finite delta it succeeds exactly when `|expected − actual| ≤ delta`
(IEEE comparison), and for a NaN delta it always succeeds.  The two spec
examples hold. -/
theorem c4_inDelta_semantics :
    (∀ (t : Sink) (env : FailEnv) (e a : Option GoValue) (delta : GoFloat),
        ((toFloat e).2 = false ∨ (toFloat a).2 = false) →
        assertVerdict (InDelta t env e a delta []) = some false
        ∧ sinkCallCount (InDelta t env e a delta []) = some (t.calls.length + 1))
    ∧ (∀ (t : Sink) (env : FailEnv) (e a : Option GoValue) (delta : GoFloat),
        (toFloat e).2 = true → (toFloat a).2 = true →
        goIsNaN (toFloat e).1 = true →
        assertVerdict (InDelta t env e a delta []) = some false
        ∧ sinkCallCount (InDelta t env e a delta []) = some (t.calls.length + 1))
    ∧ (∀ (t : Sink) (env : FailEnv) (e a : Option GoValue) (delta : GoFloat),
        (toFloat e).2 = true → (toFloat a).2 = true →
        goIsNaN (toFloat e).1 = false → goIsNaN (toFloat a).1 = true →
        assertVerdict (InDelta t env e a delta []) = some false
        ∧ sinkCallCount (InDelta t env e a delta []) = some (t.calls.length + 1))
    ∧ (∀ (t : Sink) (env : FailEnv) (e a : Option GoValue) (A C : Int) (B D : Nat)
          (dn : Int) (dd : Nat),
        toFloat e = (.finite A B, true) → toFloat a = (.finite C D, true) →
        assertVerdict (InDelta t env e a (.finite dn dd) [])
          = some (goLe (goAbs (goSub (.finite A B) (.finite C D))) (.finite dn dd)))
    ∧ (∀ (t : Sink) (env : FailEnv) (e a : Option GoValue) (A C : Int) (B D : Nat),
        toFloat e = (.finite A B, true) → toFloat a = (.finite C D, true) →
        assertVerdict (InDelta t env e a .nan []) = some true)
    ∧ assertVerdict (InDelta sink0 env0 (some (vFloat .f64 (.finite 314159 100000)))
        (some (vFloat .f64 (.finite 22 7))) (.finite 1 100) []) = some true
    ∧ assertVerdict (InDelta sink0 env0 (some (vFloat .f64 (.finite 3 1)))
        (some (vFloat .f64 (.finite 302 100))) (.finite 1 100) []) = some false := by
  refine ⟨?_, ?_, ?_, ?_, ?_, by decide, by decide⟩
  · intro t env e a delta h
    constructor <;>
      rcases h with h | h <;>
        simp [InDelta, h, (Fail_empty_args t env _).1, (Fail_empty_args t env _).2]
  · intro t env e a delta h1 h2 hn
    constructor <;>
      simp [InDelta, h1, h2, hn, (Fail_empty_args t env _).1, (Fail_empty_args t env _).2]
  · intro t env e a delta h1 h2 hn1 hn2
    constructor <;>
      simp [InDelta, h1, h2, hn1, hn2, (Fail_empty_args t env _).1, (Fail_empty_args t env _).2]
  · intro t env e a A C B D dn dd h1 h2
    rw [InDelta_finite t env e a A C B D (.finite dn dd) h1 h2]
    rw [goSub_finite, goNeg_finite, goLt_finite, goLt_finite, goAbs_finite, goLe_finite]
    by_cases hor : ((A * (D : Int) - C * (B : Int)) * (dd : Int) < -dn * ((B * D : Nat) : Int))
        ∨ ((dn : Int) * ((B * D : Nat) : Int) < (A * (D : Int) - C * (B : Int)) * (dd : Int))
    · have hc : (decide ((A * (D : Int) - C * (B : Int)) * (dd : Int)
          < -dn * ((B * D : Nat) : Int))
          || decide ((dn : Int) * ((B * D : Nat) : Int)
          < (A * (D : Int) - C * (B : Int)) * (dd : Int))) = true := by
        rcases hor with h | h
        · rw [decide_eq_true h]; rfl
        · rw [decide_eq_true h, Bool.or_true]
      have h4 : decide ((if 0 ≤ A * (D : Int) - C * (B : Int)
          then A * (D : Int) - C * (B : Int) else -(A * (D : Int) - C * (B : Int)))
            * (dd : Int) ≤ dn * ((B * D : Nat) : Int)) = false := by
        apply decide_eq_false
        intro hyes
        have hcon := (cross_abs_iff (A * (D : Int) - C * (B : Int)) dn (B * D) dd).mp hyes
        rcases hor with h | h
        · exact hcon.1 h
        · exact hcon.2 h
      rw [hc, if_pos rfl, (Fail_empty_args t env _).1, h4]
    · push_neg at hor
      have hc : (decide ((A * (D : Int) - C * (B : Int)) * (dd : Int)
          < -dn * ((B * D : Nat) : Int))
          || decide ((dn : Int) * ((B * D : Nat) : Int)
          < (A * (D : Int) - C * (B : Int)) * (dd : Int))) = false := by
        rw [decide_eq_false (not_lt.mpr hor.1), decide_eq_false (not_lt.mpr hor.2)]
        rfl
      have h4 : decide ((if 0 ≤ A * (D : Int) - C * (B : Int)
          then A * (D : Int) - C * (B : Int) else -(A * (D : Int) - C * (B : Int)))
            * (dd : Int) ≤ dn * ((B * D : Nat) : Int)) = true :=
        decide_eq_true ((cross_abs_iff (A * (D : Int) - C * (B : Int)) dn (B * D) dd).mpr
          ⟨not_lt.mpr hor.1, not_lt.mpr hor.2⟩)
      rw [hc, if_neg (by decide), h4]
      rfl
  · intro t env e a A C B D h1 h2
    rw [InDelta_finite t env e a A C B D .nan h1 h2]
    rw [goNeg_nan, goLt_nan_right, goLt_nan_left]
    rfl

/-- C4 witness: the finite-delta clause applied to the `3` versus
`3.02` example with delta `0.01`. -/
theorem c4_inDelta_semantics_witness :
    toFloat (some (vFloat .f64 (.finite 3 1))) = (.finite 3 1, true)
    ∧ toFloat (some (vFloat .f64 (.finite 302 100))) = (.finite 302 100, true)
    ∧ assertVerdict (InDelta sink0 env0 (some (vFloat .f64 (.finite 3 1)))
        (some (vFloat .f64 (.finite 302 100))) (.finite 1 100) [])
      = some (goLe (goAbs (goSub (.finite 3 1) (.finite 302 100))) (.finite 1 100)) :=
  ⟨by decide, by decide,
   c4_inDelta_semantics.2.2.2.1 sink0 env0 _ _ 3 302 1 100 1 100 (by decide) (by decide)⟩

/-! ## Reflexivity of deep equality -/

set_option maxHeartbeats 2000000 in
mutual

theorem geq_refl : ∀ v : GoValue, geq v v = true
  | vInt w n => by simp [geq]
  | vUInt w n => by simp [geq]
  | vFloat w x => by simp [geq]
  | vBool b => by simp [geq]
  | vString s => by simp [geq]
  | vTime n => by simp [geq]
  | vFunc i => by simp [geq]
  | vChan t c => by simp [geq]
  | vPtr t p => by
      cases p with
      | none => simp [geq]
      | some a => simp [geq, geq_refl a]
  | vSlice t xs => by
      cases xs with
      | none => simp [geq]
      | some l => simp [geq, geqList_refl l]
  | vArray t xs => by simp [geq, geqList_refl xs]
  | vMap kt vt m => by
      cases m with
      | none => simp [geq]
      | some l => simp [geq, geqPairs_refl l]
termination_by structural v => v

theorem geqList_refl : ∀ l : List GoValue, geqList l l = true
  | [] => rfl
  | v :: vs => by simp [geqList, geq_refl v, geqList_refl vs]
termination_by structural l => l

theorem geqPairs_refl : ∀ l : List (GoValue × GoValue), geqPairs l l = true
  | [] => rfl
  | (k, v) :: rest => by simp [geqPairs, geq_refl k, geq_refl v, geqPairs_refl rest]
termination_by structural l => l

end

set_option maxHeartbeats 2000000 in
mutual

theorem primEq_refl : ∀ v : GoValue, selfEqSafe v = true → primEq v v = true
  | vInt w n, _ => by simp [primEq]
  | vUInt w n, _ => by simp [primEq]
  | vFloat w x, h => by
      cases x with
      | nan => simp [selfEqSafe, goIsNaN] at h
      | finite a b => simp [primEq, floatEq]
  | vBool b, _ => by simp [primEq]
  | vString s, _ => by simp [primEq]
  | vTime n, _ => by simp [primEq]
  | vFunc i, _ => by simp [primEq]
  | vChan t c, _ => by simp [primEq]
  | vPtr t p, _ => by
      cases p with
      | none => simp [primEq]
      | some a => simp [primEq, geq_refl a]
  | vSlice t xs, _ => by simp [primEq, geq_refl]
  | vMap kt vt m, _ => by simp [primEq, geq_refl]
  | vArray t xs, h => by
      have h' : selfEqSafeList xs = true := by simpa [selfEqSafe] using h
      simp [primEq, primList_refl xs h']
termination_by structural v => v

theorem primList_refl : ∀ l : List GoValue, selfEqSafeList l = true → primList l l = true
  | [], _ => rfl
  | v :: vs, h => by
      have h1 : selfEqSafe v = true ∧ selfEqSafeList vs = true := by
        simpa [selfEqSafeList] using h
      simp [primList, primEq_refl v h1.1, primList_refl vs h1.2]
termination_by structural l => l

end

theorem mapReach_self (k v : GoValue) (l : List (GoValue × GoValue))
    (hmem : (k, v) ∈ l) (hk : primEq k k = true) (hv : deepEqual v v = true) :
    l.any (fun kv2 => primEq k kv2.1 && deepEqual v kv2.2) = true :=
  List.any_eq_true.mpr ⟨(k, v), hmem, by simp [hk, hv]⟩

set_option maxHeartbeats 4000000 in
mutual

theorem deepEqual_refl : ∀ v : GoValue, selfEqSafe v = true → deepEqual v v = true
  | vInt w n, _ => by simp [deepEqual]
  | vUInt w n, _ => by simp [deepEqual]
  | vFloat w x, h => by
      cases x with
      | nan => simp [selfEqSafe, goIsNaN] at h
      | finite a b => simp [deepEqual, floatEq]
  | vBool b, _ => by simp [deepEqual]
  | vString s, _ => by simp [deepEqual]
  | vTime n, _ => by simp [deepEqual]
  | vFunc i, h => by
      cases i with
      | none => simp [deepEqual]
      | some x => simp [selfEqSafe] at h
  | vChan t c, _ => by simp [deepEqual]
  | vPtr t p, h => by
      cases p with
      | none => simp [deepEqual]
      | some a =>
          have h' : selfEqSafe a = true := by simpa [selfEqSafe] using h
          simp [deepEqual, deepEqual_refl a h']
  | vSlice t xs, h => by
      cases xs with
      | none => simp [deepEqual]
      | some l =>
          have h' : selfEqSafeList l = true := by simpa [selfEqSafe] using h
          simp [deepEqual, deepList_refl l h']
  | vArray t xs, h => by
      have h' : selfEqSafeList xs = true := by simpa [selfEqSafe] using h
      simp [deepEqual, deepList_refl xs h']
  | vMap kt vt m, h => by
      cases m with
      | none => simp [deepEqual]
      | some l =>
          have h' : selfEqSafePairs l = true := by simpa [selfEqSafe] using h
          simp [deepEqual, mapAllSub_refl l l h' (fun e he => he)]
termination_by structural v => v

theorem deepList_refl : ∀ l : List GoValue, selfEqSafeList l = true → deepList l l = true
  | [], _ => rfl
  | v :: vs, h => by
      have h1 : selfEqSafe v = true ∧ selfEqSafeList vs = true := by
        simpa [selfEqSafeList] using h
      simp [deepList, deepEqual_refl v h1.1, deepList_refl vs h1.2]
termination_by structural l => l

theorem mapAllSub_refl : ∀ l1 l2 : List (GoValue × GoValue),
    selfEqSafePairs l1 = true → (∀ e ∈ l1, e ∈ l2) → mapAll l1 l2 = true
  | [], _, _, _ => rfl
  | (k, v) :: rest, l2, h, hsub => by
      have h1 : selfEqSafe k = true ∧ selfEqSafe v = true ∧ selfEqSafePairs rest = true := by
        simpa [selfEqSafePairs, and_assoc] using h
      have hk := primEq_refl k h1.1
      have hv := deepEqual_refl v h1.2.1
      have hmem : (k, v) ∈ l2 := hsub (k, v) (List.mem_cons_self _ _)
      simp [mapAll, mapReach_self k v l2 hmem hk hv,
        mapAllSub_refl rest l2 h1.2.2 (fun e he => hsub e (List.mem_cons_of_mem _ he))]
termination_by structural l1 => l1

end

/-- C3: the claim fails as stated — a non-nil function value (which
contains no floating-point component at all, NaN-bearing or otherwise)
is not strictly equal to itself, because `reflect.DeepEqual` treats
func values as deeply equal only when both are nil. -/
theorem c3_strictEqual_not_reflexive_for_funcs :
    ObjectsAreEqual (some (vFunc (some 0))) (some (vFunc (some 0))) = false := by decide

/-- C3 (amended): `ObjectsAreEqual(v, v)` is true for every value `v`
that contains no NaN floating-point value and no non-nil function
value. -/
theorem c3_strictEqual_reflexivity (v : Option GoValue) (h : selfEqSafeI v = true) :
    ObjectsAreEqual v v = true := by
  cases v with
  | none => rfl
  | some x => exact deepEqual_refl x (by simpa [selfEqSafeI] using h)

/-- C3 witness: reflexivity at a concrete composite value. -/
theorem c3_strictEqual_reflexivity_witness :
    selfEqSafeI (some (vMap .tString (.tInt .i)
      (some [(vString "k", vInt .i 3), (vString "l", vInt .i 4)]))) = true
    ∧ ObjectsAreEqual
        (some (vMap .tString (.tInt .i)
          (some [(vString "k", vInt .i 3), (vString "l", vInt .i 4)])))
        (some (vMap .tString (.tInt .i)
          (some [(vString "k", vInt .i 3), (vString "l", vInt .i 4)]))) = true :=
  ⟨by decide, c3_strictEqual_reflexivity _ (by decide)⟩

/-! ## Injectivity of the canonical dump -/

theorem replicate_count_inj {n m : Nat} {c : Char}
    (h : List.replicate n c = List.replicate m c) : n = m := by
  have := congrArg List.length h
  simpa using this

theorem intCode_inj : ∀ n m : Int, intCode n = intCode m → n = m := by
  intro n m h
  unfold intCode at h
  split at h <;> split at h <;> omega

theorem string_data_inj {s t : String} (h : s.data = t.data) : s = t := by
  cases s; cases t; exact congrArg String.mk h

theorem tokLine_inj : ∀ x y : DTok, tokLine x = tokLine y → x = y := by
  intro x y h
  have h' : tokChars x = tokChars y := by
    unfold tokLine at h
    injection h
  clear h
  cases x with
  | sym n =>
    cases y with
    | sym m =>
      simp only [tokChars, List.cons.injEq, true_and] at h'
      rw [replicate_count_inj h']
    | num m => simp only [tokChars, List.cons.injEq] at h'; exact absurd h'.1 (by decide)
    | int m => simp only [tokChars, List.cons.injEq] at h'; exact absurd h'.1 (by decide)
    | str t => simp only [tokChars, List.cons.injEq] at h'; exact absurd h'.1 (by decide)
  | num n =>
    cases y with
    | sym m => simp only [tokChars, List.cons.injEq] at h'; exact absurd h'.1 (by decide)
    | num m =>
      simp only [tokChars, List.cons.injEq, true_and] at h'
      rw [replicate_count_inj h']
    | int m => simp only [tokChars, List.cons.injEq] at h'; exact absurd h'.1 (by decide)
    | str t => simp only [tokChars, List.cons.injEq] at h'; exact absurd h'.1 (by decide)
  | int n =>
    cases y with
    | sym m => simp only [tokChars, List.cons.injEq] at h'; exact absurd h'.1 (by decide)
    | num m => simp only [tokChars, List.cons.injEq] at h'; exact absurd h'.1 (by decide)
    | int m =>
      simp only [tokChars, List.cons.injEq, true_and] at h'
      rw [intCode_inj n m (replicate_count_inj h')]
    | str t => simp only [tokChars, List.cons.injEq] at h'; exact absurd h'.1 (by decide)
  | str s =>
    cases y with
    | sym m => simp only [tokChars, List.cons.injEq] at h'; exact absurd h'.1 (by decide)
    | num m => simp only [tokChars, List.cons.injEq] at h'; exact absurd h'.1 (by decide)
    | int m => simp only [tokChars, List.cons.injEq] at h'; exact absurd h'.1 (by decide)
    | str t =>
      simp only [tokChars, List.cons.injEq, true_and] at h'
      rw [string_data_inj h']

theorem iwCode_inj : ∀ w w' : IntW, iwCode w = iwCode w' → w = w' := by
  intro w w' h
  cases w <;> cases w' <;> first | rfl | simp [iwCode] at h

theorem uwCode_inj : ∀ w w' : UIntW, uwCode w = uwCode w' → w = w' := by
  intro w w' h
  cases w <;> cases w' <;> first | rfl | simp [uwCode] at h

theorem fwCode_inj : ∀ w w' : FloatW, fwCode w = fwCode w' → w = w' := by
  intro w w' h
  cases w <;> cases w' <;> first | rfl | simp [fwCode] at h

theorem floatToks_pre : ∀ (x y : GoFloat) (r s : List DTok),
    floatToks x ++ r = floatToks y ++ s → x = y ∧ r = s := by
  intro x y r s h
  cases x <;> cases y <;> simp [floatToks] at h
  · exact ⟨rfl, h⟩
  · exact ⟨by rw [h.1, h.2.1], h.2.2⟩

theorem optNumToks_pre : ∀ (x y : Option Nat) (r s : List DTok),
    optNumToks x ++ r = optNumToks y ++ s → x = y ∧ r = s := by
  intro x y r s h
  cases x <;> cases y <;> simp [optNumToks] at h
  · exact ⟨rfl, h⟩
  · exact ⟨by rw [h.1], h.2⟩

theorem chanToks_pre : ∀ (x y : Option (Nat × Nat)) (r s : List DTok),
    chanToks x ++ r = chanToks y ++ s → x = y ∧ r = s := by
  intro x y r s h
  cases x with
  | none =>
    cases y with
    | none => simp [chanToks] at h; exact ⟨rfl, h⟩
    | some pr => obtain ⟨i, len⟩ := pr; simp [chanToks] at h
  | some pr =>
    obtain ⟨i, len⟩ := pr
    cases y with
    | none => simp [chanToks] at h
    | some pr' =>
      obtain ⟨i', len'⟩ := pr'
      simp [chanToks] at h
      exact ⟨by rw [h.1, h.2.1], h.2.2⟩

theorem typeToks_pre : ∀ (t u : GoType) (r s : List DTok),
    typeToks t ++ r = typeToks u ++ s → t = u ∧ r = s := by
  intro t
  induction t with
  | tInt w =>
    intro u r s h
    cases u <;> simp [typeToks] at h
    exact ⟨by rw [iwCode_inj _ _ h.1], h.2⟩
  | tUInt w =>
    intro u r s h
    cases u <;> simp [typeToks] at h
    exact ⟨by rw [uwCode_inj _ _ h.1], h.2⟩
  | tFloat w =>
    intro u r s h
    cases u <;> simp [typeToks] at h
    exact ⟨by rw [fwCode_inj _ _ h.1], h.2⟩
  | tBool =>
    intro u r s h
    cases u <;> simp [typeToks] at h
    exact ⟨rfl, h⟩
  | tString =>
    intro u r s h
    cases u <;> simp [typeToks] at h
    exact ⟨rfl, h⟩
  | tTime =>
    intro u r s h
    cases u <;> simp [typeToks] at h
    exact ⟨rfl, h⟩
  | tFunc =>
    intro u r s h
    cases u <;> simp [typeToks] at h
    exact ⟨rfl, h⟩
  | tChan e ih =>
    intro u r s h
    cases u <;> simp [typeToks] at h
    obtain ⟨he, hrs⟩ := ih _ _ _ h
    exact ⟨by rw [he], hrs⟩
  | tPtr e ih =>
    intro u r s h
    cases u <;> simp [typeToks] at h
    obtain ⟨he, hrs⟩ := ih _ _ _ h
    exact ⟨by rw [he], hrs⟩
  | tSlice e ih =>
    intro u r s h
    cases u <;> simp [typeToks] at h
    obtain ⟨he, hrs⟩ := ih _ _ _ h
    exact ⟨by rw [he], hrs⟩
  | tArray n e ih =>
    intro u r s h
    cases u <;> simp [typeToks] at h
    obtain ⟨hn, h2⟩ := h
    obtain ⟨he, hrs⟩ := ih _ _ _ h2
    exact ⟨by rw [hn, he], hrs⟩
  | tMap k v ihk ihv =>
    intro u r s h
    cases u <;> simp [typeToks, List.append_assoc] at h
    obtain ⟨hk, h2⟩ := ihk _ _ _ h
    obtain ⟨hv, hrs⟩ := ihv _ _ _ h2
    exact ⟨by rw [hk, hv], hrs⟩

set_option maxHeartbeats 4000000 in
mutual

theorem dumpTokens_pre : ∀ (v w : GoValue) (r s : List DTok),
    dumpTokens v ++ r = dumpTokens w ++ s → v = w ∧ r = s
  | vInt iw n, w, r, s => by
    intro h
    cases w <;> simp [dumpTokens, List.append_assoc] at h
    exact ⟨by rw [iwCode_inj _ _ h.1, h.2.1], h.2.2⟩
  | vUInt uw n, w, r, s => by
    intro h
    cases w <;> simp [dumpTokens, List.append_assoc] at h
    exact ⟨by rw [uwCode_inj _ _ h.1, h.2.1], h.2.2⟩
  | vFloat fw f, w, r, s => by
    intro h
    cases w <;> simp [dumpTokens, List.append_assoc] at h
    obtain ⟨h1, h2⟩ := h
    obtain ⟨hf, hrs⟩ := floatToks_pre _ _ _ _ h2
    exact ⟨by rw [fwCode_inj _ _ h1, hf], hrs⟩
  | vBool b, w, r, s => by
    intro h
    cases w <;> simp [dumpTokens, List.append_assoc] at h
    rename_i b'
    cases b <;> cases b' <;> simp_all
  | vString s1, w, r, s => by
    intro h
    cases w <;> simp [dumpTokens, List.append_assoc] at h
    exact ⟨by rw [h.1], h.2⟩
  | vTime n, w, r, s => by
    intro h
    cases w <;> simp [dumpTokens, List.append_assoc] at h
    exact ⟨by rw [h.1], h.2⟩
  | vFunc i, w, r, s => by
    intro h
    cases w <;> simp [dumpTokens, List.append_assoc] at h
    obtain ⟨hi, hrs⟩ := optNumToks_pre _ _ _ _ h
    exact ⟨by rw [hi], hrs⟩
  | vChan t c, w, r, s => by
    intro h
    cases w <;> simp [dumpTokens, List.append_assoc] at h
    obtain ⟨ht, h2⟩ := typeToks_pre _ _ _ _ h
    obtain ⟨hc, hrs⟩ := chanToks_pre _ _ _ _ h2
    exact ⟨by rw [ht, hc], hrs⟩
  | vPtr t p, w, r, s => by
    intro h
    cases w <;> simp [dumpTokens, List.append_assoc] at h
    rename_i t' p'
    obtain ⟨ht, h2⟩ := typeToks_pre _ _ _ _ h
    obtain ⟨hp, hrs⟩ := ptrToks_pre p p' _ _ h2
    exact ⟨by rw [ht, hp], hrs⟩
  | vSlice t xs, w, r, s => by
    intro h
    cases w <;> simp [dumpTokens, List.append_assoc] at h
    rename_i t' xs'
    obtain ⟨ht, h2⟩ := typeToks_pre _ _ _ _ h
    obtain ⟨hx, hrs⟩ := sliceToks_pre xs xs' _ _ h2
    exact ⟨by rw [ht, hx], hrs⟩
  | vArray t xs, w, r, s => by
    intro h
    cases w <;> simp [dumpTokens, List.append_assoc] at h
    rename_i t' xs'
    obtain ⟨ht, h2⟩ := typeToks_pre _ _ _ _ h
    obtain ⟨hx, hrs⟩ := seqToks_pre xs xs' _ _ h2
    exact ⟨by rw [ht, hx], hrs⟩
  | vMap kt vt m, w, r, s => by
    intro h
    cases w <;> simp [dumpTokens, List.append_assoc] at h
    rename_i kt' vt' m'
    obtain ⟨hk, h2⟩ := typeToks_pre _ _ _ _ h
    obtain ⟨hv, h3⟩ := typeToks_pre _ _ _ _ h2
    obtain ⟨hm, hrs⟩ := mapOptToks_pre m m' _ _ h3
    exact ⟨by rw [hk, hv, hm], hrs⟩
termination_by structural v => v

theorem ptrToks_pre : ∀ (p q : Option GoValue) (r s : List DTok),
    ptrToks p ++ r = ptrToks q ++ s → p = q ∧ r = s
  | none, none, r, s => by intro h; simp [ptrToks] at h; exact ⟨rfl, h⟩
  | none, some v', r, s => by intro h; simp [ptrToks] at h
  | some v, none, r, s => by intro h; simp [ptrToks] at h
  | some v, some v', r, s => by
    intro h
    simp [ptrToks] at h
    obtain ⟨hv, hrs⟩ := dumpTokens_pre v v' r s h
    exact ⟨by rw [hv], hrs⟩
termination_by structural p => p

theorem sliceToks_pre : ∀ (x y : Option (List GoValue)) (r s : List DTok),
    sliceToks x ++ r = sliceToks y ++ s → x = y ∧ r = s
  | none, none, r, s => by intro h; simp [sliceToks] at h; exact ⟨rfl, h⟩
  | none, some l', r, s => by intro h; simp [sliceToks] at h
  | some l, none, r, s => by intro h; simp [sliceToks] at h
  | some l, some l', r, s => by
    intro h
    simp [sliceToks] at h
    obtain ⟨hl, hrs⟩ := seqToks_pre l l' r s h
    exact ⟨by rw [hl], hrs⟩
termination_by structural x => x

theorem mapOptToks_pre : ∀ (x y : Option (List (GoValue × GoValue))) (r s : List DTok),
    mapOptToks x ++ r = mapOptToks y ++ s → x = y ∧ r = s
  | none, none, r, s => by intro h; simp [mapOptToks] at h; exact ⟨rfl, h⟩
  | none, some l', r, s => by intro h; simp [mapOptToks] at h
  | some l, none, r, s => by intro h; simp [mapOptToks] at h
  | some l, some l', r, s => by
    intro h
    simp [mapOptToks] at h
    obtain ⟨hl, hrs⟩ := mapEntryToks_pre l l' r s h
    exact ⟨by rw [hl], hrs⟩
termination_by structural x => x

theorem seqToks_pre : ∀ (l1 l2 : List GoValue) (r s : List DTok),
    seqToks l1 ++ r = seqToks l2 ++ s → l1 = l2 ∧ r = s
  | [], [], r, s => by intro h; simp [seqToks] at h; exact ⟨rfl, h⟩
  | [], v' :: vs', r, s => by intro h; simp [seqToks] at h
  | v :: vs, [], r, s => by intro h; simp [seqToks] at h
  | v :: vs, v' :: vs', r, s => by
    intro h
    simp [seqToks, List.append_assoc] at h
    obtain ⟨hv, h2⟩ := dumpTokens_pre v v' _ _ h
    obtain ⟨hvs, hrs⟩ := seqToks_pre vs vs' _ _ h2
    exact ⟨by rw [hv, hvs], hrs⟩
termination_by structural l1 => l1

theorem mapEntryToks_pre : ∀ (l1 l2 : List (GoValue × GoValue)) (r s : List DTok),
    mapEntryToks l1 ++ r = mapEntryToks l2 ++ s → l1 = l2 ∧ r = s
  | [], [], r, s => by intro h; simp [mapEntryToks] at h; exact ⟨rfl, h⟩
  | [], e' :: es', r, s => by
    intro h
    obtain ⟨k', v'⟩ := e'
    simp [mapEntryToks] at h
  | e :: es, [], r, s => by
    intro h
    obtain ⟨k, v⟩ := e
    simp [mapEntryToks] at h
  | (k, v) :: es, (k', v') :: es', r, s => by
    intro h
    simp [mapEntryToks, List.append_assoc] at h
    obtain ⟨hk, h2⟩ := dumpTokens_pre k k' _ _ h
    obtain ⟨hv, h3⟩ := dumpTokens_pre v v' _ _ h2
    obtain ⟨hes, hrs⟩ := mapEntryToks_pre es es' _ _ h3
    exact ⟨by rw [hk, hv, hes], hrs⟩
termination_by structural l1 => l1

end

/-- Distinct values have distinct canonical token dumps. -/
theorem dumpTokens_inj {v w : GoValue} (h : dumpTokens v = dumpTokens w) : v = w := by
  have h2 : dumpTokens v ++ [] = dumpTokens w ++ [] := by
    rw [List.append_nil, List.append_nil, h]
  exact (dumpTokens_pre v w [] [] h2).1

theorem map_tokLine_inj : ∀ a b : List DTok, a.map tokLine = b.map tokLine → a = b := by
  intro a
  induction a with
  | nil =>
    intro b h
    cases b with
    | nil => rfl
    | cons y ys => simp at h
  | cons x xs ih =>
    intro b h
    cases b with
    | nil => simp at h
    | cons y ys =>
      simp only [List.map_cons, List.cons.injEq] at h
      rw [tokLine_inj x y h.1, ih ys h.2]

/-- Distinct values have distinct canonical dumps. -/
theorem dumpLines_inj {v w : GoValue} (h : dumpLines v = dumpLines w) : v = w :=
  dumpTokens_inj (map_tokLine_inj _ _ h)

/-! ## Substring lemmas for the diff labels -/

theorem listHasSub_nil_needle : ∀ hay : List Char, listHasSub [] hay = true := by
  intro hay; cases hay <;> simp [listHasSub, listHasPre]

theorem listHasPre_append : ∀ n p r : List Char,
    listHasPre n p = true → listHasPre n (p ++ r) = true := by
  intro n
  induction n with
  | nil => intro p r _; rfl
  | cons c cs ih =>
    intro p r h
    cases p with
    | nil => simp [listHasPre] at h
    | cons d ds =>
      simp only [listHasPre, Bool.and_eq_true] at h
      simp only [List.cons_append, listHasPre, Bool.and_eq_true]
      exact ⟨h.1, ih ds r h.2⟩

theorem listHasSub_append : ∀ p n r : List Char,
    listHasSub n p = true → listHasSub n (p ++ r) = true := by
  intro p
  induction p with
  | nil =>
    intro n r h
    cases n with
    | nil => simpa using listHasSub_nil_needle r
    | cons c cs => simp [listHasSub, listHasPre] at h
  | cons d ds ih =>
    intro n r h
    simp only [listHasSub, Bool.or_eq_true] at h
    rcases h with h | h
    · have h2 := listHasPre_append n (d :: ds) r h
      simp only [List.cons_append] at h2 ⊢
      simp [listHasSub, h2]
    · have h2 := ih n r h
      simp [listHasSub, h2]

theorem listHasSub_prepend : ∀ p n x : List Char,
    listHasSub n x = true → listHasSub n (p ++ x) = true := by
  intro p n x h
  induction p with
  | nil => simpa using h
  | cons d ds ih => simp [listHasSub, ih]

theorem string_data_append (p q : String) : (p ++ q).data = p.data ++ q.data := rfl

theorem strContains_append (p q sub : String) (h : strContains p sub = true) :
    strContains (p ++ q) sub = true := by
  unfold strContains at h ⊢
  rw [string_data_append]
  exact listHasSub_append _ _ _ h

theorem strContains_prepend (p x sub : String) (h : strContains x sub = true) :
    strContains (p ++ x) sub = true := by
  unfold strContains at h ⊢
  rw [string_data_append]
  exact listHasSub_prepend _ _ _ h

theorem typeAndKind_of_not_ptr (v : GoValue) (h : kindOfT (typeOf v) ≠ GoKind.kPtr) :
    typeAndKind v = (typeOf v, kindOfT (typeOf v)) := by
  cases hT : typeOf v with
  | tPtr e => exact absurd (by rw [hT]; rfl) h
  | tInt w => simp [typeAndKind, hT]
  | tUInt w => simp [typeAndKind, hT]
  | tFloat w => simp [typeAndKind, hT]
  | tBool => simp [typeAndKind, hT]
  | tString => simp [typeAndKind, hT]
  | tTime => simp [typeAndKind, hT]
  | tFunc => simp [typeAndKind, hT]
  | tChan e => simp [typeAndKind, hT]
  | tSlice e => simp [typeAndKind, hT]
  | tArray n e => simp [typeAndKind, hT]
  | tMap k vv => simp [typeAndKind, hT]

/-- C8: `diff` returns the empty string whenever either value is nil,
the one-level-dereferenced types differ, or the shared kind is not a
struct, map, slice or array; and on two different same-type composite
values it returns non-empty text containing both the `Expected` and the
`Actual` label. -/
theorem c8_diff_shape :
    (∀ x : Option GoValue, diff none x = "" ∧ diff x none = "")
    ∧ (∀ e a : GoValue, (typeAndKind e).1 ≠ (typeAndKind a).1 → diff (some e) (some a) = "")
    ∧ (∀ e a : GoValue,
        (typeAndKind e).2 ≠ .kStruct → (typeAndKind e).2 ≠ .kMap →
        (typeAndKind e).2 ≠ .kSlice → (typeAndKind e).2 ≠ .kArray →
        diff (some e) (some a) = "")
    ∧ (∀ e a : GoValue, e ≠ a → typeOf e = typeOf a →
        (kindOfT (typeOf e) = .kStruct ∨ kindOfT (typeOf e) = .kMap ∨
         kindOfT (typeOf e) = .kSlice ∨ kindOfT (typeOf e) = .kArray) →
        diff (some e) (some a) ≠ ""
        ∧ strContains (diff (some e) (some a)) "Expected" = true
        ∧ strContains (diff (some e) (some a)) "Actual" = true) := by
  refine ⟨?_, ?_, ?_, ?_⟩
  · intro x; exact ⟨rfl, by cases x <;> rfl⟩
  · intro e a h
    simp [diff, h]
  · intro e a h1 h2 h3 h4
    by_cases hta : (typeAndKind e).1 = (typeAndKind a).1
    · simp [diff, hta, h1, h2, h3, h4]
    · simp [diff, hta]
  · intro e a hne hty hkind
    have hkp : kindOfT (typeOf e) ≠ GoKind.kPtr := by
      rcases hkind with h | h | h | h <;> rw [h] <;> decide
    have hkpa : kindOfT (typeOf a) ≠ GoKind.kPtr := by rw [← hty]; exact hkp
    have he := typeAndKind_of_not_ptr e hkp
    have ha := typeAndKind_of_not_ptr a hkpa
    have hdl : dumpLines e ≠ dumpLines a := fun hdl => hne (dumpLines_inj hdl)
    have hdiff : diff (some e) (some a)
        = "\n\nDiff:\n" ++ getUnifiedDiffString (dumpLines e) (dumpLines a) := by
      rcases hkind with h | h | h | h
      · have hA : kindOfT (typeOf a) = GoKind.kStruct := by rw [← hty]; exact h
        simp [diff, he, ha, hty, h, hA]
      · have hA : kindOfT (typeOf a) = GoKind.kMap := by rw [← hty]; exact h
        simp [diff, he, ha, hty, h, hA]
      · have hA : kindOfT (typeOf a) = GoKind.kSlice := by rw [← hty]; exact h
        simp [diff, he, ha, hty, h, hA]
      · have hA : kindOfT (typeOf a) = GoKind.kArray := by rw [← hty]; exact h
        simp [diff, he, ha, hty, h, hA]
    have hgud : getUnifiedDiffString (dumpLines e) (dumpLines a)
        = "--- Expected\n+++ Actual\n@@ @@\n"
          ++ String.join ((dumpLines e).map (fun l => "-" ++ l ++ "\n"))
          ++ String.join ((dumpLines a).map (fun l => "+" ++ l ++ "\n")) := by
      unfold getUnifiedDiffString
      rw [if_neg hdl]
    refine ⟨?_, ?_, ?_⟩
    · rw [hdiff]
      intro hempty
      have h0 := congrArg String.length hempty
      rw [String.length_append] at h0
      simp at h0
      exact absurd h0.1 (by decide)
    · rw [hdiff, hgud]
      exact strContains_prepend _ _ _
        (strContains_append _ _ _ (strContains_append _ _ _ (by decide)))
    · rw [hdiff, hgud]
      exact strContains_prepend _ _ _
        (strContains_append _ _ _ (strContains_append _ _ _ (by decide)))

/-- C8 witness: the composite clause applied to two different boolean
slices, and the scalar clause at concrete scalars. -/
theorem c8_diff_shape_witness :
    ((vSlice .tBool (some [vBool true]) : GoValue) ≠ vSlice .tBool (some [vBool false]))
    ∧ diff (some (vSlice .tBool (some [vBool true])))
        (some (vSlice .tBool (some [vBool false]))) ≠ ""
    ∧ strContains (diff (some (vSlice .tBool (some [vBool true])))
        (some (vSlice .tBool (some [vBool false])))) "Expected" = true
    ∧ strContains (diff (some (vSlice .tBool (some [vBool true])))
        (some (vSlice .tBool (some [vBool false])))) "Actual" = true :=
  by
  have h := c8_diff_shape.2.2.2 (vSlice .tBool (some [vBool true]))
    (vSlice .tBool (some [vBool false])) (by simp) rfl (Or.inr (Or.inr (Or.inl rfl)))
  exact ⟨by simp, h.1, h.2.1, h.2.2⟩

end Assert
